import Mathlib

/-!
# Star-catcher game: a model of the client session and the leaderboard

A shallow embedding of the two game components of the repository,
`frontend/src/App.jsx` (namespace `App`) and `frontend/src/Game.jsx`
(namespace `Game`, the component mounted at route "/"), of the leaderboard
handlers of `backend/index.js` and of the edit form of
`frontend/src/Leaderboard.jsx`.

Conventions of the embedding:

* JavaScript numbers that hold coordinates, sizes and speeds are rationals
  (`ℚ`): arithmetic is exact where the browser rounds to a double.  Score and
  level are natural numbers, the time remaining is an integer.
* `Math.random()` is an injected stream `rnd : Nat → ℚ`; the `k`-th call made by
  `createLevel` reads `rnd k`.
* React state setters and ref assignments are applied in program order to one
  explicit session record, and a callback reads its state from that record: the
  render that created the callback is taken to be the current one.  Timers
  (`setTimeout`, `setInterval`, `requestAnimationFrame`) are separate transition
  functions on the record.
* `endGame` is modelled up to its first `await`; the leaderboard requests it
  sends afterwards are not part of the session record.  `Game.Run` adds the
  list of POST requests of `Game.jsx` to the session, with the score and level
  that the calling callback holds.
* `canvasRef.current` is `Option Canvas`: `none` before the component is
  mounted.  Drawing calls on the 2D context have no effect on the session and
  are left out.
-/

namespace StarGame

/-! ## Shared data -/

/-- The drawing surface: `canvas.width`, `canvas.height`. -/
structure Canvas where
  width : ℚ
  height : ℚ
deriving DecidableEq, Repr

/-- A collectible: `{ x, y, size, color }`; `color` is the index into the
palette `starColors`. -/
structure Star where
  x : ℚ
  y : ℚ
  size : ℚ
  color : Nat
deriving DecidableEq, Repr

/-- A hazard: `{ x, y, w, h, dx }`. -/
structure Obstacle where
  x : ℚ
  y : ℚ
  w : ℚ
  h : ℚ
  dx : ℚ
deriving DecidableEq, Repr

/-- The entries of `keysRef.current` that `moveBall` reads. -/
structure Keys where
  arrowUp : Bool
  w : Bool
  arrowDown : Bool
  s : Bool
  arrowLeft : Bool
  a : Bool
  arrowRight : Bool
  d : Bool
deriving DecidableEq, Repr

/-- No key held: the initial `keysRef.current = {}`. -/
def Keys.none : Keys :=
  { arrowUp := false, w := false, arrowDown := false, s := false,
    arrowLeft := false, a := false, arrowRight := false, d := false }

/-- `Math.round`: the nearest integer, halves rounded up. -/
def jsRound (q : ℚ) : ℚ := ((⌊q + 1 / 2⌋ : ℤ) : ℚ)

/-- `starColors.length`: both components use a palette of six colours. -/
def paletteSize : Nat := 6

/-- `Math.floor(Math.random() * starColors.length)` as a palette index. -/
def colorIndex (r : ℚ) : Nat := (⌊r * (paletteSize : ℚ)⌋ : ℤ).toNat

/-- `Math.min(8, 3 + lvl + Math.floor(lvl / 2))`. -/
def starCount (lvl : Nat) : Nat := min 8 (3 + lvl + lvl / 2)

/-- `Math.min(6, lvl)`. -/
def obsCount (lvl : Nat) : Nat := min 6 lvl

/-- `Math.random() > 0.5 ? 1 : -1`. -/
def randomDir (r : ℚ) : ℚ := if r > 1 / 2 then 1 else -1


/-! ### Player names

A JavaScript string is a sequence of UTF-16 code units; a `String` here is a
sequence of Unicode characters, so `.length` of the source is `jsLength`. -/

/-- The code points that `String.prototype.trim` strips: white space and line
terminators of the language standard. -/
def isJsWhiteSpace (c : Char) : Bool :=
  c.toNat = 0x09 || c.toNat = 0x0A || c.toNat = 0x0B || c.toNat = 0x0C || c.toNat = 0x0D
  || c.toNat = 0x20 || c.toNat = 0xA0 || c.toNat = 0x1680
  || (0x2000 ≤ c.toNat && c.toNat ≤ 0x200A)
  || c.toNat = 0x2028 || c.toNat = 0x2029 || c.toNat = 0x202F || c.toNat = 0x205F
  || c.toNat = 0x3000 || c.toNat = 0xFEFF

/-- `name.trim()` on the list of characters. -/
def jsTrim (cs : List Char) : List Char :=
  ((cs.dropWhile isJsWhiteSpace).reverse.dropWhile isJsWhiteSpace).reverse

/-- `.length` of a JavaScript string: a character outside the basic plane
takes two code units. -/
def jsLength (cs : List Char) : Nat :=
  (cs.map (fun c => if c.toNat < 0x10000 then 1 else 2)).sum

/-- The character class `[-_A-Za-z0-9 ]` of the name pattern. -/
def allowedChar (c : Char) : Bool :=
  c = '-' || c = '_' || ('A'.toNat ≤ c.toNat && c.toNat ≤ 'Z'.toNat)
  || ('a'.toNat ≤ c.toNat && c.toNat ≤ 'z'.toNat)
  || ('0'.toNat ≤ c.toNat && c.toNat ≤ '9'.toNat) || c = ' '

/-- `/^[-_A-Za-z0-9 ]+$/.test(cs)`: one or more characters, all of the class. -/
def namePatternTest (cs : List Char) : Bool :=
  !cs.isEmpty && cs.all allowedChar

/-- `validateName(name)`, the same function in both components: the error
message, or the empty string when the name is accepted.  The argument is always
a string, so of `!name || typeof name !== "string"` only the empty-string test
remains. -/
def validateName (name : String) : String :=
  if name.data.isEmpty then "Please enter a name"
  else
    let trimmed := jsTrim name.data
    if jsLength trimmed < 3 then "Name must be at least 3 characters"
    else if jsLength trimmed > 16 then "Name must be at most 16 characters"
    else if !namePatternTest trimmed then "Only letters, numbers, spaces, - and _ allowed"
    else ""

/-- One line of the per-frame obstacle update shared by both components:
`o.x += o.dx; if (o.x <= 0 || o.x + o.w >= canvas.width) o.dx *= -1`. -/
def advance (width : ℚ) (o : Obstacle) : Obstacle :=
  let x1 := o.x + o.dx
  { o with x := x1, dx := if x1 ≤ 0 ∨ x1 + o.w ≥ width then o.dx * -1 else o.dx }

/-! ## `App.jsx` -/

namespace App

/-- `ballRef.current = { x, y, radius, color }` (the colour is constant). -/
structure Ball where
  x : ℚ
  y : ℚ
  radius : ℚ
deriving DecidableEq, Repr

/-- The component state (`useState`) and refs (`useRef`) of `App`;
`pendingLevelUps` counts the level transitions scheduled by `setTimeout` in
`drawStars` that have not fired yet. -/
structure Session where
  canvas : Option Canvas
  playerName : String
  nameError : String
  score : Nat
  level : Nat
  timeLeft : Int
  hasStarted : Bool
  gameOver : Bool
  paused : Bool
  ball : Ball
  stars : List Star
  obstacles : List Obstacle
  keys : Keys
  invulnerable : Bool
  levelUpTriggered : Bool
  pendingLevelUps : Nat
deriving DecidableEq, Repr

/-- The state right after mounting, before the resize effect: the `useState`
and `useRef` initial values and the `<canvas width={700} height={420}>`. -/
def init : Session :=
  { canvas := some { width := 700, height := 420 }
    playerName := ""
    nameError := ""
    score := 0
    level := 1
    timeLeft := 30
    hasStarted := false
    gameOver := false
    paused := false
    ball := { x := 100, y := 100, radius := 15 }
    stars := []
    obstacles := []
    keys := Keys.none
    invulnerable := false
    levelUpTriggered := false
    pendingLevelUps := 0 }

/-- The `i`-th star of `createLevel`: draws `3 * i`, `3 * i + 1`, `3 * i + 2`. -/
def mkStar (rnd : Nat → ℚ) (cv : Canvas) (i : Nat) : Star :=
  { x := rnd (3 * i) * (cv.width - 60) + 30
    y := rnd (3 * i + 1) * (cv.height - 60) + 30
    size := 16
    color := colorIndex (rnd (3 * i + 2)) }

/-- The `j`-th obstacle of `createLevel`; `base` draws were made for the stars. -/
def mkObstacle (rnd : Nat → ℚ) (cv : Canvas) (lvl : Nat) (base j : Nat) : Obstacle :=
  let w : ℚ := 40
  let h : ℚ := 18
  let x := rnd (base + 4 * j) * (cv.width - 2 * w) + w
  let y := rnd (base + 4 * j + 1) * (cv.height - 2 * h) + h
  let dir := randomDir (rnd (base + 4 * j + 2))
  let speed := 8 / 5 + (lvl : ℚ) * (9 / 10) + rnd (base + 4 * j + 3) * (3 / 5)
  { x := x, y := y, w := w, h := h, dx := dir * speed }

/-- `createLevel(lvl)`: nothing happens without a canvas; otherwise new stars
and obstacles, the ball is re-centred, the clock is reset and the
invulnerability window opens. -/
def createLevel (rnd : Nat → ℚ) (lvl : Nat) (s : Session) : Session :=
  match s.canvas with
  | none => s
  | some cv =>
    { s with
      stars := (List.range (starCount lvl)).map (mkStar rnd cv)
      obstacles := (List.range (obsCount lvl)).map (mkObstacle rnd cv lvl (3 * starCount lvl))
      ball := { s.ball with x := jsRound (cv.width / 2), y := jsRound (cv.height - 40) }
      timeLeft := 30
      invulnerable := true
      levelUpTriggered := false }

/-- The callback of `setTimeout(() => (invulnerableRef.current = false), 700)`. -/
def invulnerabilityTimeout (s : Session) : Session :=
  { s with invulnerable := false }

/-- `endGame()` up to its first `await`: the session flags.  The leaderboard
request and the navigation that follow do not touch the session. -/
def endGame (s : Session) : Session :=
  { s with gameOver := true, hasStarted := false }

/-- `startGame()`: a rejected name only sets the error text. -/
def startGame (rnd : Nat → ℚ) (s : Session) : Session :=
  let err := validateName s.playerName
  if err ≠ "" then { s with nameError := err }
  else
    createLevel rnd 1
      { s with nameError := "", score := 0, level := 1, gameOver := false, paused := false,
               hasStarted := true }

/-- The updater passed to `setTimeLeft` by the interval callback, with the
`endGame` call it makes. -/
def timerTick (s : Session) : Session :=
  if s.timeLeft ≤ 1 then { endGame s with timeLeft := 0 }
  else { s with timeLeft := s.timeLeft - 1 }

/-- The guard of the timer effect, `if (!hasStarted || paused || gameOver) return`:
the interval exists only while this is true. -/
def timerRunning (s : Session) : Bool :=
  !(!s.hasStarted || s.paused || s.gameOver)

/-- One second of wall-clock time: the interval callback fires if it is installed. -/
def clockStep (s : Session) : Session :=
  if timerRunning s then timerTick s else s

/-- The collision test of `drawStars`:
`dx * dx + dy * dy < (b.radius + s.size / 2) ** 2`. -/
def starHit (b : Ball) (st : Star) : Bool :=
  let dx := b.x - st.x
  let dy := b.y - st.y
  decide (dx * dx + dy * dy < (b.radius + st.size / 2) ^ 2)

/-- The loop `for (let i = stars.length - 1; i >= 0; i--)` of `drawStars`:
`starLoop b (i + 1) stars score` runs the iterations `i, i - 1, ..., 0` on the
current array.  A hit adds 10 to the score and does `stars.splice(i, 1)`.  The
index is always inside the array; the `none` branch is never taken. -/
def starLoop (b : Ball) : Nat → List Star → Nat → List Star × Nat
  | 0, stars, score => (stars, score)
  | i + 1, stars, score =>
    match stars[i]? with
    | none => (stars, score)
    | some st =>
      if starHit b st then starLoop b i (stars.eraseIdx i) (score + 10)
      else starLoop b i stars score

/-- `drawStars()`: the collection loop, then the level-up trigger. -/
def drawStars (s : Session) : Session :=
  let r := starLoop s.ball s.stars.length s.stars s.score
  let s1 := { s with stars := r.1, score := r.2 }
  if r.1.length = 0 ∧ s1.levelUpTriggered = false then
    { s1 with levelUpTriggered := true, pendingLevelUps := s1.pendingLevelUps + 1 }
  else s1

/-- The callback scheduled by `drawStars`:
`setLevel((l) => { createLevel(l + 1); return l + 1; })`. -/
def levelUpTimeout (rnd : Nat → ℚ) (s : Session) : Session :=
  let s1 := createLevel rnd (s.level + 1) s
  { s1 with level := s.level + 1, pendingLevelUps := s.pendingLevelUps - 1 }

/-- The point `(cx, cy)` of `drawObstacles`,
`cx = Math.max(o.x, Math.min(b.x, o.x + o.w))` and likewise `cy`: the ball
centre clamped to the rectangle of the obstacle. -/
def closestPoint (b : Ball) (o : Obstacle) : ℚ × ℚ :=
  (max o.x (min b.x (o.x + o.w)), max o.y (min b.y (o.y + o.h)))

/-- The contact test of `drawObstacles`: `dx * dx + dy * dy <= b.radius * b.radius`
for the offset of the ball centre from `closestPoint`. -/
def touches (b : Ball) (o : Obstacle) : Bool :=
  let dx := b.x - (closestPoint b o).1
  let dy := b.y - (closestPoint b o).2
  decide (dx * dx + dy * dy ≤ b.radius * b.radius)

/-- The loop `for (let o of obs)` of `drawObstacles`: each obstacle is advanced
and tested in turn; on the first contact `endGame(); return` leaves the rest
untouched.  The flag tells whether `endGame` was called. -/
def obstacleLoop (width : ℚ) (b : Ball) (invulnerable : Bool) :
    List Obstacle → List Obstacle × Bool
  | [] => ([], false)
  | o :: rest =>
    let o1 := advance width o
    if !invulnerable && touches b o1 then (o1 :: rest, true)
    else
      let r := obstacleLoop width b invulnerable rest
      (o1 :: r.1, r.2)

/-- `drawObstacles()` on the canvas `cv` held by the frame loop. -/
def drawObstacles (cv : Canvas) (s : Session) : Session :=
  let r := obstacleLoop cv.width s.ball s.invulnerable s.obstacles
  let s1 := { s with obstacles := r.1 }
  if r.2 then endGame s1 else s1

/-- `moveBall()` on the canvas `cv` held by the frame loop. -/
def moveBall (cv : Canvas) (s : Session) : Session :=
  if !s.hasStarted || s.paused || s.gameOver then s
  else
    let b := s.ball
    let speed : ℚ := 6 + (s.level : ℚ) * (6 / 5)
    let y1 := if s.keys.arrowUp || s.keys.w then b.y - speed else b.y
    let y2 := if s.keys.arrowDown || s.keys.s then y1 + speed else y1
    let x1 := if s.keys.arrowLeft || s.keys.a then b.x - speed else b.x
    let x2 := if s.keys.arrowRight || s.keys.d then x1 + speed else x1
    { s with ball := { b with x := max b.radius (min (cv.width - b.radius) x2)
                              y := max b.radius (min (cv.height - b.radius) y2) } }

/-- One frame, `loop()`: `drawStars(); drawObstacles(); moveBall();`.  The
effect that owns the loop does not start it without a canvas. -/
def loop (s : Session) : Session :=
  match s.canvas with
  | none => s
  | some cv => moveBall cv (drawObstacles cv (drawStars s))

end App

/-! ## `Game.jsx` -/

namespace Game

/-- `ballRef.current = { x, y, radius, color, speed }` (the colour is constant). -/
structure Ball where
  x : ℚ
  y : ℚ
  radius : ℚ
  speed : ℚ
deriving DecidableEq, Repr

/-- The component state and refs of `Game` that the game logic reads or writes. -/
structure Session where
  canvas : Option Canvas
  playerName : String
  nameError : String
  score : Nat
  level : Nat
  timeLeft : Int
  hasStarted : Bool
  gameOver : Bool
  paused : Bool
  ball : Ball
  stars : List Star
  obstacles : List Obstacle
  keys : Keys
  invulnerable : Bool
deriving DecidableEq, Repr

/-- The state right after mounting: the `useState` and `useRef` initial values
and the `<canvas width={720} height={420}>`. -/
def init : Session :=
  { canvas := some { width := 720, height := 420 }
    playerName := ""
    nameError := ""
    score := 0
    level := 1
    timeLeft := 30
    hasStarted := false
    gameOver := false
    paused := false
    ball := { x := 100, y := 100, radius := 16, speed := 3 }
    stars := []
    obstacles := []
    keys := Keys.none
    invulnerable := false }

/-- The `i`-th star of `createLevel`: draws `3 * i`, `3 * i + 1`, `3 * i + 2`. -/
def mkStar (rnd : Nat → ℚ) (cv : Canvas) (i : Nat) : Star :=
  { x := rnd (3 * i) * (cv.width - 40) + 20
    y := rnd (3 * i + 1) * (cv.height - 40) + 20
    size := 14
    color := colorIndex (rnd (3 * i + 2)) }

/-- The `j`-th obstacle of `createLevel`; `base` draws were made for the stars. -/
def mkObstacle (rnd : Nat → ℚ) (cv : Canvas) (lvl : Nat) (base j : Nat) : Obstacle :=
  let w : ℚ := 50
  let h : ℚ := 20
  let x := rnd (base + 4 * j) * (cv.width - 2 * w) + w
  let y := rnd (base + 4 * j + 1) * (cv.height - 2 * h) + h
  let dir := randomDir (rnd (base + 4 * j + 2))
  let speed := 3 / 2 + (lvl : ℚ) * (7 / 10) + rnd (base + 4 * j + 3) * (1 / 2)
  { x := x, y := y, w := w, h := h, dx := dir * speed }

/-- `createLevel(lvl)`: nothing happens without a canvas; otherwise new stars
and obstacles, the ball is re-centred with the speed of the level, the clock is
reset and the invulnerability window opens. -/
def createLevel (rnd : Nat → ℚ) (lvl : Nat) (s : Session) : Session :=
  match s.canvas with
  | none => s
  | some cv =>
    { s with
      stars := (List.range (starCount lvl)).map (mkStar rnd cv)
      obstacles := (List.range (obsCount lvl)).map (mkObstacle rnd cv lvl (3 * starCount lvl))
      ball := { s.ball with
                x := cv.width / 2, y := cv.height - 40, speed := 3 + (lvl : ℚ) * (1 / 2) }
      timeLeft := 30
      invulnerable := true }

/-- The callback of `setTimeout(() => (invulnerableRef.current = false), 700)`. -/
def invulnerabilityTimeout (s : Session) : Session :=
  { s with invulnerable := false }

/-- `endGame()` up to its first `await`: the session flags.  The leaderboard
requests that follow do not touch these fields. -/
def endGame (s : Session) : Session :=
  { s with gameOver := true, hasStarted := false }

/-- `startGame()`: a rejected name only sets the error text. -/
def startGame (rnd : Nat → ℚ) (s : Session) : Session :=
  let err := validateName s.playerName
  if err ≠ "" then { s with nameError := err }
  else
    createLevel rnd 1
      { s with nameError := "", score := 0, level := 1, timeLeft := 30, hasStarted := true,
               gameOver := false }

/-- The updater passed to `setTimeLeft` by the interval callback, with the
`endGame` call it makes. -/
def timerTick (s : Session) : Session :=
  if s.timeLeft ≤ 1 then { endGame s with timeLeft := 0 }
  else { s with timeLeft := s.timeLeft - 1 }

/-- The guard of the timer effect, `if (!hasStarted || paused || gameOver) return`:
the interval exists only while this is true. -/
def timerRunning (s : Session) : Bool :=
  !(!s.hasStarted || s.paused || s.gameOver)

/-- One second of wall-clock time: the interval callback fires if it is installed. -/
def clockStep (s : Session) : Session :=
  if timerRunning s then timerTick s else s

/-- `moveBall()`: the held keys move the ball by `ball.speed`; with a canvas,
four one-sided corrections follow. -/
def moveBall (s : Session) : Session :=
  let b := s.ball
  let y1 := if s.keys.arrowUp || s.keys.w then b.y - b.speed else b.y
  let y2 := if s.keys.arrowDown || s.keys.s then y1 + b.speed else y1
  let x1 := if s.keys.arrowLeft || s.keys.a then b.x - b.speed else b.x
  let x2 := if s.keys.arrowRight || s.keys.d then x1 + b.speed else x1
  match s.canvas with
  | none => { s with ball := { b with x := x2, y := y2 } }
  | some cv =>
    let x3 := if x2 - b.radius < 0 then b.radius else x2
    let x4 := if x3 + b.radius > cv.width then cv.width - b.radius else x3
    let y3 := if y2 - b.radius < 0 then b.radius else y2
    let y4 := if y3 + b.radius > cv.height then cv.height - b.radius else y3
    { s with ball := { b with x := x4, y := y4 } }

/-- The star test of `checkCollisions`,
`Math.hypot(ball.x - star.x, ball.y - star.y) < ball.radius + star.size`,
written without the square root: a non-negative root is below `t` exactly when
`t` is positive and the sum of squares is below `t * t`. -/
def starHit (b : Ball) (st : Star) : Bool :=
  let dx := b.x - st.x
  let dy := b.y - st.y
  let t := b.radius + st.size
  decide (0 < t ∧ dx * dx + dy * dy < t * t)

/-- The obstacle test of `checkCollisions`: the bounding square of the ball
against the rectangle, all four comparisons strict. -/
def overlaps (b : Ball) (o : Obstacle) : Bool :=
  decide (b.x + b.radius > o.x) && decide (b.x - b.radius < o.x + o.w)
  && decide (b.y + b.radius > o.y) && decide (b.y - b.radius < o.y + o.h)

/-- The callback of `obstaclesRef.current.forEach` in `checkCollisions` for one
obstacle: the test (skipped while invulnerable) with its `endGame()` call, then
the advance.  The session carries the flags; the obstacle is returned. -/
def obstacleVisit (width : ℚ) (acc : Session × List Obstacle) (o : Obstacle) :
    Session × List Obstacle :=
  let s1 := if !acc.1.invulnerable && overlaps acc.1.ball o then endGame acc.1 else acc.1
  (s1, acc.2 ++ [advance width o])

/-- The callback of `starsRef.current.filter` in `checkCollisions` for one star:
a collected star is dropped and `setScore((s) => s + 1)` runs; any other star is
kept, in order. -/
def starVisit (b : Ball) (acc : List Star × Nat) (st : Star) : List Star × Nat :=
  if starHit b st then (acc.1, acc.2 + 1) else (acc.1 ++ [st], acc.2)

/-- `checkCollisions()` on the canvas `cv` that `animate` found: the star
filter, the obstacle pass, and the immediate level-up when no star is left.
`level` in `createLevel(level + 1)` is the level of the render that created the
callback, taken to be the current one. -/
def checkCollisions (rnd : Nat → ℚ) (cv : Canvas) (s : Session) : Session :=
  let f := s.stars.foldl (starVisit s.ball) ([], s.score)
  let s1 : Session := { s with stars := f.1, score := f.2 }
  let r := s1.obstacles.foldl (obstacleVisit cv.width) (s1, [])
  let s2 : Session := { r.1 with obstacles := r.2 }
  if s2.stars.length = 0 then createLevel rnd (s.level + 1) { s2 with level := s2.level + 1 }
  else s2

/-- One frame, `animate()`: nothing unless the session is playing and the
canvas exists; otherwise `moveBall(); checkCollisions();`. -/
def animate (rnd : Nat → ℚ) (s : Session) : Session :=
  if !s.hasStarted || s.paused || s.gameOver then s
  else
    match s.canvas with
    | none => s
    | some cv => checkCollisions rnd cv (moveBall s)

end Game

/-! ## Properties and concrete sessions used in the statements -/

/-- The ball of `App` lies inside the canvas: `radius ≤ x ≤ width − radius` and
`radius ≤ y ≤ height − radius`. -/
def App.InBounds (cv : Canvas) (b : App.Ball) : Prop :=
  b.radius ≤ b.x ∧ b.x ≤ cv.width - b.radius ∧ b.radius ≤ b.y ∧ b.y ≤ cv.height - b.radius

/-- The ball of `Game` lies inside the canvas. -/
def Game.InBounds (cv : Canvas) (b : Game.Ball) : Prop :=
  b.radius ≤ b.x ∧ b.x ≤ cv.width - b.radius ∧ b.radius ≤ b.y ∧ b.y ≤ cv.height - b.radius

/-- The canvas of `App` as mounted. -/
def App.canvas0 : Canvas := { width := 700, height := 420 }

/-- The canvas of `Game` as mounted. -/
def Game.canvas0 : Canvas := { width := 720, height := 420 }

/-- An idle `App` session whose ball sits on the top-left corner of the canvas. -/
def App.idleAtCorner : App.Session :=
  { App.init with ball := { x := 0, y := 0, radius := 15 } }

/-- A playing `App` session at level 2 with the right and down keys held and the
ball close to the bottom-right corner. -/
def App.playingNearCorner : App.Session :=
  { App.init with
    hasStarted := true, level := 2
    keys := { Keys.none with arrowRight := true, s := true }
    ball := { x := 680, y := 400, radius := 15 } }

/-- A playing `Game` session with the left and up keys held and the ball close
to the top-left corner. -/
def Game.playingNearCorner : Game.Session :=
  { Game.init with
    hasStarted := true
    keys := { Keys.none with a := true, arrowUp := true }
    ball := { x := 17, y := 18, radius := 16, speed := 7 / 2 } }

/-- A playing `App` session with three stars: the ball covers the first and the
third, the second is far away. -/
def App.threeStars : App.Session :=
  { App.init with
    hasStarted := true, score := 20
    ball := { x := 100, y := 100, radius := 15 }
    stars := [ { x := 110, y := 100, size := 16, color := 0 },
               { x := 300, y := 200, size := 16, color := 1 },
               { x := 100, y := 90, size := 16, color := 2 } ] }

/-- The point `p` lies in the rectangle of the obstacle `o`. -/
def InRect (p : ℚ × ℚ) (o : Obstacle) : Prop :=
  o.x ≤ p.1 ∧ p.1 ≤ o.x + o.w ∧ o.y ≤ p.2 ∧ p.2 ≤ o.y + o.h

/-- The squared distance between two points. -/
def sqDist (p q : ℚ × ℚ) : ℚ := (p.1 - q.1) ^ 2 + (p.2 - q.2) ^ 2

/-- The closest point of the rectangle of `o` to `c` is within distance `r` of
`c`, in squares: the contact rule of the specification. -/
def WithinRadius (c : ℚ × ℚ) (r : ℚ) (o : Obstacle) : Prop :=
  sqDist c (max o.x (min c.1 (o.x + o.w)), max o.y (min c.2 (o.y + o.h))) ≤ r ^ 2

/-- A playing `Game` session with two stars, the first under the ball, and no
obstacle. -/
def Game.oneStarUnderBall : Game.Session :=
  { Game.init with
    hasStarted := true
    ball := { x := 200, y := 200, radius := 16, speed := 7 / 2 }
    stars := [ { x := 210, y := 200, size := 14, color := 0 },
               { x := 500, y := 100, size := 14, color := 1 } ] }

/-- A playing, vulnerable `Game` session: the ball is off the top-left corner
of the only obstacle, farther from the corner than its radius, while its
bounding square overlaps the rectangle.  One far star keeps the level going. -/
def Game.ballOffCorner : Game.Session :=
  { Game.init with
    hasStarted := true
    ball := { x := 88, y := 88, radius := 16, speed := 7 / 2 }
    stars := [ { x := 500, y := 300, size := 14, color := 1 } ]
    obstacles := [ { x := 100, y := 100, w := 50, h := 20, dx := 2 } ] }

/-- A playing, vulnerable `Game` session: the ball exactly touches the left
edge of the only obstacle. -/
def Game.ballTouching : Game.Session :=
  { Game.init with
    hasStarted := true
    ball := { x := 84, y := 110, radius := 16, speed := 7 / 2 }
    stars := [ { x := 500, y := 300, size := 14, color := 1 } ]
    obstacles := [ { x := 100, y := 100, w := 50, h := 20, dx := 2 } ] }

/-- A playing, vulnerable `App` session: the only obstacle moves left onto the
ball in this frame. -/
def App.obstacleArrives : App.Session :=
  { App.init with
    hasStarted := true
    ball := { x := 100, y := 100, radius := 15 }
    stars := [ { x := 500, y := 300, size := 16, color := 1 } ]
    obstacles := [ { x := 117, y := 95, w := 40, h := 18, dx := -3 } ] }

/-- The mounted `App` with the 2-character name "Al" typed in. -/
def App.namedAl : App.Session := { App.init with playerName := "Al" }

/-- The mounted `Game` with the 2-character name "Al" typed in. -/
def Game.namedAl : Game.Session := { Game.init with playerName := "Al" }

/-- An ended `App` session of the player "Ava_99": level 3, 70 points, time up,
entities of the old level still in the refs. -/
def App.endedAva : App.Session :=
  { App.init with
    playerName := "Ava_99", nameError := "Please enter a name"
    score := 70, level := 3, timeLeft := 0, gameOver := true, paused := true
    ball := { x := 33, y := 44, radius := 15 }
    stars := [ { x := 500, y := 300, size := 16, color := 1 } ]
    obstacles := [ { x := 117, y := 95, w := 40, h := 18, dx := -3 },
                   { x := 217, y := 195, w := 40, h := 18, dx := 4 } ]
    levelUpTriggered := true }

/-- An ended `Game` session of the player "Ava_99". -/
def Game.endedAva : Game.Session :=
  { Game.init with
    playerName := "Ava_99"
    score := 7, level := 3, timeLeft := 0, gameOver := true
    ball := { x := 33, y := 44, radius := 16, speed := 9 / 2 }
    stars := [ { x := 500, y := 300, size := 14, color := 1 } ]
    obstacles := [ { x := 117, y := 95, w := 50, h := 20, dx := -3 },
                   { x := 217, y := 195, w := 50, h := 20, dx := 4 } ] }

/-- A playing `App` session at the start of a level, stars still on screen. -/
def App.levelStart : App.Session :=
  { App.init with
    playerName := "Ava_99", hasStarted := true, invulnerable := true
    stars := [ { x := 500, y := 300, size := 16, color := 1 } ] }

/-- A playing `Game` session at the start of a level, stars still on screen. -/
def Game.levelStart : Game.Session :=
  { Game.init with
    playerName := "Ava_99", hasStarted := true, invulnerable := true
    stars := [ { x := 500, y := 300, size := 14, color := 1 } ] }

/-! ## Events of a mounted `App` -/

/-- What can happen to a mounted `App` without a call of `createLevel`: an
animation frame, a second of the clock, the end of the invulnerability window,
a change of the held keys, the pause button, typing in the name field. -/
inductive App.Event where
  | frame
  | second
  | invulnerabilityEnds
  | keys (k : Keys)
  | togglePause
  | typeName (name : String)

/-- The effect of one event on the session.  The pause button is rendered only
while `hasStarted`, the name field only while `!hasStarted && !gameOver`. -/
def App.step (s : App.Session) : App.Event → App.Session
  | .frame => App.loop s
  | .second => App.clockStep s
  | .invulnerabilityEnds => App.invulnerabilityTimeout s
  | .keys k => { s with keys := k }
  | .togglePause => if s.hasStarted then { s with paused := !s.paused } else s
  | .typeName name =>
    if !s.hasStarted && !s.gameOver then { s with playerName := name } else s

/-- A sequence of events, none of which calls `createLevel`. -/
def App.run (s : App.Session) (evs : List App.Event) : App.Session :=
  evs.foldl App.step s

/-- A paused, vulnerable `App` session: a star lies under the ball and an
obstacle is about to move onto it. -/
def App.pausedOverStar : App.Session :=
  { App.init with
    hasStarted := true, paused := true, score := 20
    ball := { x := 100, y := 100, radius := 15 }
    stars := [ { x := 110, y := 100, size := 16, color := 0 },
               { x := 500, y := 300, size := 16, color := 1 } ]
    obstacles := [ { x := 117, y := 95, w := 40, h := 18, dx := -3 } ] }

/-- A playing `App` session at level 2 whose last star lies under the ball. -/
def App.lastStar : App.Session :=
  { App.init with
    hasStarted := true, level := 2, score := 50
    ball := { x := 100, y := 100, radius := 15 }
    stars := [ { x := 110, y := 100, size := 16, color := 0 } ] }

/-! ## The leaderboard service (`backend/index.js`) and its clients

The collection is the list of its documents in insertion order.  The identifier
and the time stamp that the database gives a new document are parameters of the
handlers (`newId`, `now`).  Database calls are taken to succeed, so the `catch`
branches are reached only through schema validation. -/

/-- A document of the collection: `_id`, `name`, `score`, `level`, `date`. -/
structure Entry where
  id : String
  name : String
  score : ℤ
  level : ℤ
  date : Nat
deriving DecidableEq, Repr

/-- The outcome of a request: 200, 404 with "Player not found", or 500. -/
inductive Reply where
  | ok
  | notFound
  | serverError
deriving DecidableEq, Repr

/-- The order of `.sort({ score: -1, level: -1 })`: `a` may stand before `b`. -/
def scoreLevelDesc (a b : Entry) : Prop :=
  b.score < a.score ∨ (b.score = a.score ∧ b.level ≤ a.level)

instance : DecidableRel scoreLevelDesc := fun a b => by
  unfold scoreLevelDesc; infer_instance

/-- `GET /api/leaderboard`: `Leaderboard.find().sort({ score: -1, level: -1 })`. -/
def getLeaderboard (store : List Entry) : List Entry :=
  store.insertionSort scoreLevelDesc

/-- The comparator of `Game.jsx`, `(a, b) => b.score - a.score`, as the order
it induces: `a` stays before `b` when the difference is not positive. -/
def scoreDesc (a b : Entry) : Prop := b.score - a.score ≤ 0

instance : DecidableRel scoreDesc := fun a b => by
  unfold scoreDesc; infer_instance

/-- `x || 0` on an integer. -/
def orZero (x : ℤ) : ℤ := if x = 0 then 0 else x

/-- The comparator of `Leaderboard.jsx`,
`(a, b) => (b.score || 0) - (a.score || 0)`, as the order it induces. -/
def scoreOrZeroDesc (a b : Entry) : Prop := orZero b.score - orZero a.score ≤ 0

instance : DecidableRel scoreOrZeroDesc := fun a b => by
  unfold scoreOrZeroDesc; infer_instance

/-- `Array.prototype.sort` is stable; on a comparator that induces a total
preorder its result is the stable sort, computed here by insertion. -/
def Game.sortFetched (data : List Entry) : List Entry :=
  data.insertionSort scoreDesc

/-- The list shown by `Leaderboard.jsx`: `scores.slice().sort(...)`. -/
def sortScores (scores : List Entry) : List Entry :=
  scores.insertionSort scoreOrZeroDesc

/-- The `required: true` validator of the `name` path, run by `save()`: a
string passes when it is not empty.  (`score` and `level` are always numbers
here.) -/
def nameRequiredOk (name : String) : Bool := decide (name ≠ "")

/-- `POST /api/leaderboard`: `new Leaderboard({ name, score, level }).save()`;
a validation error is caught and answered with 500. -/
def postLeaderboard (newId : String) (now : Nat) (name : String) (score level : ℤ)
    (store : List Entry) : List Entry × Reply :=
  if nameRequiredOk name then
    (store ++ [{ id := newId, name := name, score := score, level := level, date := now }],
     Reply.ok)
  else (store, Reply.serverError)

/-- The update half of `findOneAndUpdate({ name }, { $set: { score, level, date } })`:
the first document named `name` gets the new values; `none` when there is no
such document. -/
def updateFirst (now : Nat) (name : String) (score level : ℤ) :
    List Entry → Option (List Entry)
  | [] => none
  | e :: t =>
    if e.name = name then some ({ e with score := score, level := level, date := now } :: t)
    else (updateFirst now name score level t).map (fun t1 => e :: t1)

/-- `PUT /api/leaderboard/:name`: `findOneAndUpdate` with `upsert: true`. -/
def putLeaderboard (newId : String) (now : Nat) (name : String) (score level : ℤ)
    (store : List Entry) : List Entry × Reply :=
  match updateFirst now name score level store with
  | some store1 => (store1, Reply.ok)
  | none =>
    (store ++ [{ id := newId, name := name, score := score, level := level, date := now }],
     Reply.ok)

/-- `findOneAndDelete({ name })`: the first document named `name` is removed and
returned; `none` when there is no such document. -/
def deleteFirst (name : String) : List Entry → Option (Entry × List Entry)
  | [] => none
  | e :: t =>
    if e.name = name then some (e, t)
    else (deleteFirst name t).map (fun r => (r.1, e :: r.2))

/-- `DELETE /api/leaderboard/:name`. -/
def deleteLeaderboard (name : String) (store : List Entry) : List Entry × Reply :=
  match deleteFirst name store with
  | none => (store, Reply.notFound)
  | some r => (r.2, Reply.ok)

/-- `DELETE /api/leaderboard`: `deleteMany({})`. -/
def clearLeaderboard (_store : List Entry) : List Entry × Reply := ([], Reply.ok)

/-- The form state of `Leaderboard.jsx`.  The score and level fields are taken
to hold integers, as they do right after Edit; a cleared field is written 0 (the
next Edit overwrites it before `updateScore` can read it). -/
structure EditForm where
  newName : String
  newScore : ℤ
  newLevel : ℤ
  editId : Option String
deriving DecidableEq, Repr

/-- The Edit button of the row `r`: `setEditId(r._id); setNewName(r.name);
setNewScore(r.score); setNewLevel(r.level)`. -/
def editRow (r : Entry) (_f : EditForm) : EditForm :=
  { newName := r.name, newScore := r.score, newLevel := r.level, editId := some r.id }

/-- `updateScore()` and the request it sends,
`PUT /api/leaderboard/${editId}` with `{ score, level: newLevel || 1 }`:
the store afterwards and the form. -/
def updateScore (newId : String) (now : Nat) (f : EditForm) (store : List Entry) :
    List Entry × EditForm :=
  match f.editId with
  | none => (store, f)
  | some eid =>
    if eid = "" then (store, f)
    else
      ((putLeaderboard newId now eid f.newScore
          (if f.newLevel = 0 then 1 else f.newLevel) store).1,
       { f with editId := none, newScore := 0, newLevel := 0 })

/-- The values `{ score, level, date }` written over an entry by `$set`. -/
def Entry.setScore (now : Nat) (score level : ℤ) (e : Entry) : Entry :=
  { e with score := score, level := level, date := now }

/-- A store with one entry per name, "Ava_99" among them. -/
def storeWithAva : List Entry :=
  [ { id := "665f1c2ab7e4d2a9c0a1b2c1", name := "Bo_7", score := 80, level := 4, date := 100 },
    { id := "665f1c2ab7e4d2a9c0a1b2c2", name := "Ava_99", score := 50, level := 3, date := 200 },
    { id := "665f1c2ab7e4d2a9c0a1b2c3", name := "Cy", score := 20, level := 1, date := 300 } ]

/-- The row of "Ava_99" in `storeWithAva`. -/
def avaRow : Entry :=
  { id := "665f1c2ab7e4d2a9c0a1b2c2", name := "Ava_99", score := 50, level := 3, date := 200 }

/-- The form of `Leaderboard.jsx` as mounted: all fields empty, no row in edit. -/
def blankForm : EditForm := { newName := "", newScore := 0, newLevel := 0, editId := none }

/-! ## The requests sent by `Game.jsx`

`endGame` and the live leaderboard sync of `Game.jsx` send
`axios.post("/api/leaderboard", { name, score, level })`.  `Game.Run` pairs the
session with the list of these requests.  The `score` and `level` of a request
are those of the render that created the calling callback: the current ones
for a frame and for the sync interval (their effects are re-created whenever
score or level change), and the ones captured when the timer effect last ran
for the clock (`timerScore`, `timerLevel`). -/

/-- The body of one POST request. -/
structure Submission where
  name : String
  score : Nat
  level : Nat
deriving DecidableEq, Repr

/-- `playerName.trim() || "Guest"`. -/
def Game.submitName (playerName : String) : String :=
  if jsTrim playerName.data = [] then "Guest" else String.mk (jsTrim playerName.data)

/-- The mounted `Game` with the requests sent so far and the score and level
held by the closure of the timer callback. -/
structure Game.Run where
  session : Game.Session
  timerScore : Nat
  timerLevel : Nat
  posted : List Submission
deriving DecidableEq, Repr

/-- `endGame()` called from a callback whose render had the given score and
level: the flags of `Game.endGame` and the POST request. -/
def Game.endGamePost (score level : Nat) (r : Game.Run) : Game.Run :=
  { r with
    session := Game.endGame r.session
    posted := r.posted ++
      [{ name := Game.submitName r.session.playerName, score := score, level := level }] }

/-- `Game.obstacleVisit` with the requests of its `endGame()` calls. -/
def Game.runObstacleVisit (width : ℚ) (score level : Nat) (acc : Game.Run × List Obstacle)
    (o : Obstacle) : Game.Run × List Obstacle :=
  let r1 := if !acc.1.session.invulnerable && Game.overlaps acc.1.session.ball o
    then Game.endGamePost score level acc.1 else acc.1
  (r1, acc.2 ++ [advance width o])

/-- `Game.animate` with the requests of its `endGame()` calls: the guard,
`moveBall()`, then `checkCollisions()` step by step. -/
def Game.runFrame (rnd : Nat → ℚ) (r : Game.Run) : Game.Run :=
  let s := r.session
  if !s.hasStarted || s.paused || s.gameOver then r
  else
    match s.canvas with
    | none => r
    | some cv =>
      let s0 := Game.moveBall s
      let f := s0.stars.foldl (Game.starVisit s0.ball) ([], s0.score)
      let s1 : Game.Session := { s0 with stars := f.1, score := f.2 }
      let v := s1.obstacles.foldl (Game.runObstacleVisit cv.width s.score s.level)
        ({ r with session := s1 }, [])
      let s2 : Game.Session := { v.1.session with obstacles := v.2 }
      let s3 : Game.Session :=
        if s2.stars.length = 0 then
          Game.createLevel rnd (s0.level + 1) { s2 with level := s2.level + 1 }
        else s2
      { v.1 with session := s3 }

/-- `Game.clockStep` with the request of its `endGame()` call. -/
def Game.runSecond (r : Game.Run) : Game.Run :=
  if Game.timerRunning r.session then
    if r.session.timeLeft ≤ 1 then
      let r1 := Game.endGamePost r.timerScore r.timerLevel r
      { r1 with session := { r1.session with timeLeft := 0 } }
    else { r with session := { r.session with timeLeft := r.session.timeLeft - 1 } }
  else r

/-- One tick of the live leaderboard sync: the interval exists while
`hasStarted && !gameOver` and its callback sends one POST request. -/
def Game.runSync (r : Game.Run) : Game.Run :=
  if !r.session.hasStarted || r.session.gameOver then r
  else
    { r with
      posted := r.posted ++
        [{ name := Game.submitName r.session.playerName, score := r.session.score,
           level := r.session.level }] }

/-- What can happen to a mounted `Game`: the Start button, an animation frame,
a second of the clock, a tick of the leaderboard sync, the end of the
invulnerability window, a change of the held keys, the pause button.  Start and
frame carry the random draws they may consume. -/
inductive Game.Event where
  | start (rnd : Nat → ℚ)
  | frame (rnd : Nat → ℚ)
  | second
  | sync
  | invulnerabilityEnds
  | keys (k : Keys)
  | togglePause

/-- The effect of one event.  The Start button is rendered only while
`!hasStarted && !gameOver`, the pause button only while `hasStarted && !gameOver`;
the timer effect runs again, with the current score and level, whenever
`hasStarted`, `paused` or `gameOver` change. -/
def Game.step (r : Game.Run) : Game.Event → Game.Run
  | .start rnd =>
    if !r.session.hasStarted && !r.session.gameOver then
      let s1 := Game.startGame rnd r.session
      if s1.hasStarted then { r with session := s1, timerScore := s1.score, timerLevel := s1.level }
      else { r with session := s1 }
    else r
  | .frame rnd => Game.runFrame rnd r
  | .second => Game.runSecond r
  | .sync => Game.runSync r
  | .invulnerabilityEnds => { r with session := Game.invulnerabilityTimeout r.session }
  | .keys k => { r with session := { r.session with keys := k } }
  | .togglePause =>
    if r.session.hasStarted && !r.session.gameOver then
      { r with session := { r.session with paused := !r.session.paused }
               timerScore := r.session.score, timerLevel := r.session.level }
    else r

/-- A run of the session state machine. -/
def Game.run (r : Game.Run) (evs : List Game.Event) : Game.Run :=
  evs.foldl Game.step r

/-- The mounted `Game` with "Ava_99" typed in and nothing sent yet. -/
def Game.mountedAva : Game.Run :=
  { session := { Game.init with playerName := "Ava_99" }
    timerScore := 0, timerLevel := 1, posted := [] }

/-- A random source that always draws 1/4. -/
def quarterDraws : Nat → ℚ := fun _ => 1 / 4

/-- The state of an obstacle of width `w` and speed `v` that started at `x0` on
a canvas of the given width: it sits a whole number of steps from `x0`, moves
left only from inside the left edge and right only from inside the right edge. -/
def Bouncing (width w v x0 : ℚ) (o : Obstacle) : Prop :=
  o.w = w ∧ (o.dx = v ∨ o.dx = -v) ∧ (∃ k : ℤ, o.x = x0 + (k : ℚ) * v)
  ∧ (o.dx = -v → 0 < o.x ∧ o.x + w < width + v)
  ∧ (o.dx = v → o.x + w < width ∧ -v < o.x)

/-- A random source that always draws 3/4. -/
def threeQuarterDraws : Nat → ℚ := fun _ => 3 / 4

/-- A mounted `App` whose canvas is exactly two obstacle widths wide. -/
def App.narrowCanvas : App.Session :=
  { App.init with canvas := some { width := 80, height := 420 } }

/-- The obstacle that `createLevel(1)` makes on `App.narrowCanvas` when every
draw is 3/4. -/
def App.narrowObstacle : Obstacle :=
  { x := 40, y := 306, w := 40, h := 18, dx := 59 / 20 }

/-! ## Theorems -/

/-- C1: with a canvas mounted, `createLevel(L)` of either component produces
exactly `min(8, 3 + L + floor(L/2))` stars and exactly `min(6, L)` obstacles,
for every level `L ≥ 1`; at level 1 that is 4 stars and 1 obstacle. -/
theorem createLevel_counts (rnd : Nat → ℚ) (L : Nat) (hL : 1 ≤ L) (cva cvg : Canvas)
    (a : App.Session) (g : Game.Session)
    (ha : a.canvas = some cva) (hg : g.canvas = some cvg) :
    (App.createLevel rnd L a).stars.length = min 8 (3 + L + L / 2)
    ∧ (App.createLevel rnd L a).obstacles.length = min 6 L
    ∧ (Game.createLevel rnd L g).stars.length = min 8 (3 + L + L / 2)
    ∧ (Game.createLevel rnd L g).obstacles.length = min 6 L
    ∧ (App.createLevel rnd 1 a).stars.length = 4
    ∧ (App.createLevel rnd 1 a).obstacles.length = 1
    ∧ (Game.createLevel rnd 1 g).stars.length = 4
    ∧ (Game.createLevel rnd 1 g).obstacles.length = 1 := by
  have _ := hL
  simp [App.createLevel, Game.createLevel, ha, hg, starCount, obsCount]

/-- Witness for C1 at level 3 on the freshly mounted components. -/
theorem createLevel_counts_witness :
    (App.createLevel (fun _ => 1 / 4) 3 App.init).stars.length = min 8 (3 + 3 + 3 / 2)
    ∧ (App.createLevel (fun _ => 1 / 4) 3 App.init).obstacles.length = min 6 3
    ∧ (Game.createLevel (fun _ => 1 / 4) 3 Game.init).stars.length = min 8 (3 + 3 + 3 / 2)
    ∧ (Game.createLevel (fun _ => 1 / 4) 3 Game.init).obstacles.length = min 6 3
    ∧ (App.createLevel (fun _ => 1 / 4) 1 App.init).stars.length = 4
    ∧ (App.createLevel (fun _ => 1 / 4) 1 App.init).obstacles.length = 1
    ∧ (Game.createLevel (fun _ => 1 / 4) 1 Game.init).stars.length = 4
    ∧ (Game.createLevel (fun _ => 1 / 4) 1 Game.init).obstacles.length = 1 :=
  createLevel_counts (fun _ => 1 / 4) 3 (by decide) { width := 700, height := 420 }
    { width := 720, height := 420 } App.init Game.init rfl rfl

/-! ### Movement -/

/-- C2 as stated fails in `App.jsx`: before the session starts `moveBall`
returns at its guard, so a ball on the corner of a 700 × 420 canvas is left
there, outside `[radius, width − radius]`. -/
theorem app_moveBall_idle_not_clamped :
    2 * App.idleAtCorner.ball.radius ≤ App.canvas0.width
    ∧ 2 * App.idleAtCorner.ball.radius ≤ App.canvas0.height
    ∧ ¬ App.InBounds App.canvas0 (App.moveBall App.canvas0 App.idleAtCorner).ball := by
  refine ⟨by norm_num [App.idleAtCorner, App.canvas0], by norm_num [App.idleAtCorner, App.canvas0], ?_⟩
  intro h
  have h1 := h.1
  norm_num [App.moveBall, App.idleAtCorner, App.init] at h1

/-- C2 (amended): on a canvas at least one ball diameter wide and high,
`moveBall` of `Game.jsx` always leaves the ball inside
`[radius, width − radius] × [radius, height − radius]`, and so does `moveBall`
of `App.jsx` whenever the session is playing (started, not paused, not over);
when the `App.jsx` session is not playing its `moveBall` changes nothing. -/
theorem moveBall_clamped (cv : Canvas) (a : App.Session) (g : Game.Session)
    (hg : g.canvas = some cv)
    (hwa : 2 * a.ball.radius ≤ cv.width) (hha : 2 * a.ball.radius ≤ cv.height)
    (hwg : 2 * g.ball.radius ≤ cv.width) (hhg : 2 * g.ball.radius ≤ cv.height) :
    Game.InBounds cv (Game.moveBall g).ball
    ∧ (a.hasStarted = true → a.paused = false → a.gameOver = false →
        App.InBounds cv (App.moveBall cv a).ball)
    ∧ ((a.hasStarted = false ∨ a.paused = true ∨ a.gameOver = true) →
        App.moveBall cv a = a) := by
  refine ⟨?_, ?_, ?_⟩
  · simp only [Game.moveBall, hg, Game.InBounds]
    refine ⟨?_, ?_, ?_, ?_⟩ <;> split_ifs <;> linarith
  · intro h1 h2 h3
    simp only [App.moveBall, h1, h2, h3, App.InBounds]
    simp only [Bool.not_true, Bool.or_self, Bool.false_eq_true, if_false]
    refine ⟨le_max_left _ _, max_le (by linarith) (min_le_left _ _), le_max_left _ _,
      max_le (by linarith) (min_le_left _ _)⟩
  · intro h
    rcases h with h | h | h <;> simp [App.moveBall, h]

/-- Witness for C2 on the mounted canvases, with keys held towards a corner. -/
theorem moveBall_clamped_witness :
    Game.InBounds Game.canvas0 (Game.moveBall Game.playingNearCorner).ball
    ∧ (App.playingNearCorner.hasStarted = true → App.playingNearCorner.paused = false →
        App.playingNearCorner.gameOver = false →
        App.InBounds Game.canvas0 (App.moveBall Game.canvas0 App.playingNearCorner).ball)
    ∧ ((App.playingNearCorner.hasStarted = false ∨ App.playingNearCorner.paused = true
          ∨ App.playingNearCorner.gameOver = true) →
        App.moveBall Game.canvas0 App.playingNearCorner = App.playingNearCorner) :=
  moveBall_clamped Game.canvas0 App.playingNearCorner Game.playingNearCorner rfl
    (by norm_num [App.playingNearCorner, Game.canvas0])
    (by norm_num [App.playingNearCorner, Game.canvas0])
    (by norm_num [Game.playingNearCorner, Game.canvas0])
    (by norm_num [Game.playingNearCorner, Game.canvas0])

/-! ### Star collection in `App.jsx` -/

/-- The reverse loop with `splice`: after the iterations `k - 1, ..., 0` the
first `k` stars have been filtered, the others are untouched, and the score has
grown by 10 for each star removed. -/
theorem App.starLoop_spec (b : App.Ball) :
    ∀ (k : Nat) (stars : List Star) (score : Nat), k ≤ stars.length →
      App.starLoop b k stars score =
        ((stars.take k).filter (fun st => !App.starHit b st) ++ stars.drop k,
         score + 10 * ((stars.take k).filter (fun st => App.starHit b st)).length) := by
  intro k
  induction k with
  | zero => intro stars score _; simp [App.starLoop]
  | succ k ih =>
    intro stars score h
    have hk : k < stars.length := h
    have hget : stars[k]? = some stars[k] := List.getElem?_eq_getElem hk
    have htake : stars.take (k + 1) = stars.take k ++ [stars[k]] := by
      rw [List.take_succ, hget]; rfl
    have hlen : (stars.take k).length = k := by simp; omega
    rw [App.starLoop]
    simp only [hget]
    by_cases hit : App.starHit b stars[k] = true
    · rw [if_pos hit, ih _ _ (by rw [List.length_eraseIdx]; simp [hk]; omega)]
      rw [List.eraseIdx_eq_take_drop_succ, List.take_left' hlen, List.drop_left' hlen, htake]
      have f1 : List.filter (fun st => !App.starHit b st) [stars[k]] = [] := by
        simp [List.filter_cons, hit]
      have f2 : List.filter (fun st => App.starHit b st) [stars[k]] = [stars[k]] := by
        simp [List.filter_cons, hit]
      simp only [List.filter_append, f1, f2, List.append_nil, List.length_append,
        List.length_singleton]
      congr 1
      omega
    · rw [if_neg hit, ih _ _ (by omega), htake]
      have hd : stars.drop k = stars[k] :: stars.drop (k + 1) := List.drop_eq_getElem_cons hk
      have f1 : List.filter (fun st => !App.starHit b st) [stars[k]] = [stars[k]] := by
        simp [List.filter_cons, hit]
      have f2 : List.filter (fun st => App.starHit b st) [stars[k]] = [] := by
        simp [List.filter_cons, hit]
      simp only [List.filter_append, f1, f2, hd, List.append_nil, List.append_assoc,
        List.singleton_append]

/-- The stars kept and the stars removed by a filter add up to the list. -/
theorem length_filter_not_add (p : Star → Bool) (l : List Star) :
    (l.filter (fun st => !p st)).length + (l.filter p).length = l.length := by
  induction l with
  | nil => rfl
  | cons a t ih =>
    by_cases h : p a = true
    · simp [List.filter_cons, h]; omega
    · simp [List.filter_cons, h]; omega

/-- C3: `drawStars` of `App.jsx` keeps exactly the stars that are not hit, in
their original order, and raises the score by exactly 10 for each star removed;
a star is not hit exactly when the distance from the ball centre to its centre
is at least `radius + size / 2` (for a non-negative `radius + size / 2`). -/
theorem drawStars_collects (s : App.Session) :
    (App.drawStars s).stars = s.stars.filter (fun st => !App.starHit s.ball st)
    ∧ (App.drawStars s).score
        = s.score + 10 * (s.stars.length - (App.drawStars s).stars.length)
    ∧ (∀ st ∈ s.stars, 0 ≤ s.ball.radius + st.size / 2 →
        (App.starHit s.ball st = false ↔
          (((s.ball.radius + st.size / 2 : ℚ)) : ℝ)
            ≤ Real.sqrt (((s.ball.x - st.x) ^ 2 + (s.ball.y - st.y) ^ 2 : ℚ) : ℝ))) := by
  have hspec := App.starLoop_spec s.ball s.stars.length s.stars s.score le_rfl
  simp only [List.take_length, List.drop_length, List.append_nil] at hspec
  have hstars : (App.drawStars s).stars
      = s.stars.filter (fun st => !App.starHit s.ball st) := by
    unfold App.drawStars
    simp only [hspec]
    split_ifs <;> rfl
  have hscore : (App.drawStars s).score
      = s.score + 10 * (s.stars.filter (fun st => App.starHit s.ball st)).length := by
    unfold App.drawStars
    simp only [hspec]
    split_ifs <;> rfl
  refine ⟨hstars, ?_, ?_⟩
  · rw [hscore, hstars]
    have := length_filter_not_add (fun st => App.starHit s.ball st) s.stars
    omega
  · intro st _ hnn
    have hnn' : (0 : ℝ) ≤ ((s.ball.radius + st.size / 2 : ℚ) : ℝ) := by exact_mod_cast hnn
    rw [Real.le_sqrt hnn' (by positivity)]
    simp only [App.starHit, decide_eq_false_iff_not, not_lt]
    constructor
    · intro h
      have h2 : (s.ball.radius + st.size / 2) ^ 2
          ≤ (s.ball.x - st.x) ^ 2 + (s.ball.y - st.y) ^ 2 := by nlinarith [h]
      exact_mod_cast h2
    · intro h
      have h2 : (s.ball.radius + st.size / 2) ^ 2
          ≤ (s.ball.x - st.x) ^ 2 + (s.ball.y - st.y) ^ 2 := by exact_mod_cast h
      nlinarith [h2]

/-- The session `App.threeStars` run through C3: the two stars under the ball are
removed, the far one stays, and the score goes from 20 to 40. -/
theorem drawStars_collects_witness :
    (App.drawStars App.threeStars).stars = [ { x := 300, y := 200, size := 16, color := 1 } ]
    ∧ (App.drawStars App.threeStars).score = 40 := by
  have h := drawStars_collects App.threeStars
  refine ⟨h.1.trans ?_, ?_⟩
  · norm_num [App.threeStars, App.init, App.starHit, List.filter]
  · have h1 : (App.drawStars App.threeStars).stars.length = 1 := by
      rw [h.1]; norm_num [App.threeStars, App.init, App.starHit, List.filter]
    rw [h.2.1, h1]
    rfl

/-! ### `checkCollisions` of `Game.jsx` -/

/-- The filter callback folded over the stars: the stars not hit are kept in
order and the score grows by one for each star hit. -/
theorem Game.foldl_starVisit (b : Game.Ball) (l : List Star) :
    ∀ acc : List Star × Nat,
      l.foldl (Game.starVisit b) acc
        = (acc.1 ++ l.filter (fun st => !Game.starHit b st),
           acc.2 + (l.filter (fun st => Game.starHit b st)).length) := by
  induction l with
  | nil => intro acc; simp
  | cons st t ih =>
    intro acc
    rw [List.foldl_cons, ih]
    by_cases hit : Game.starHit b st = true
    · simp [Game.starVisit, List.filter_cons, hit]; omega
    · simp [Game.starVisit, List.filter_cons, hit]

/-- The obstacle callback folded over the obstacles: `endGame` has run exactly
when the session is vulnerable and the test holds for some obstacle at its
position before the advance; every obstacle is advanced. -/
theorem Game.foldl_obstacleVisit (width : ℚ) (l : List Obstacle) :
    ∀ acc : Game.Session × List Obstacle,
      l.foldl (Game.obstacleVisit width) acc
        = (if !acc.1.invulnerable && l.any (Game.overlaps acc.1.ball)
             then Game.endGame acc.1 else acc.1,
           acc.2 ++ l.map (advance width)) := by
  induction l with
  | nil => intro acc; simp
  | cons o t ih =>
    intro acc
    rw [List.foldl_cons, ih]
    cases hi : acc.1.invulnerable <;> cases ho : Game.overlaps acc.1.ball o <;>
      cases ht : t.any (Game.overlaps acc.1.ball) <;>
      simp [Game.obstacleVisit, Game.endGame, hi, ho, ht]

/-- The test of `Game.starHit` is the comparison of the source:
`Math.hypot(dx, dy) < radius + size`. -/
theorem Game.starHit_iff_hypot (b : Game.Ball) (st : Star) :
    Game.starHit b st = true ↔
      Real.sqrt ((((b.x - st.x) ^ 2 + (b.y - st.y) ^ 2 : ℚ)) : ℝ)
        < (((b.radius + st.size : ℚ)) : ℝ) := by
  simp only [Game.starHit, decide_eq_true_eq]
  constructor
  · rintro ⟨hpos, hlt⟩
    have hpos' : (0 : ℝ) < ((b.radius + st.size : ℚ) : ℝ) := by exact_mod_cast hpos
    rw [Real.sqrt_lt' hpos']
    have h2 : (b.x - st.x) ^ 2 + (b.y - st.y) ^ 2 < (b.radius + st.size) ^ 2 := by
      nlinarith [hlt]
    exact_mod_cast h2
  · intro h
    have hpos' : (0 : ℝ) < ((b.radius + st.size : ℚ) : ℝ) :=
      lt_of_le_of_lt (Real.sqrt_nonneg _) h
    have hpos : 0 < b.radius + st.size := by exact_mod_cast hpos'
    rw [Real.sqrt_lt' hpos'] at h
    have h2 : (b.x - st.x) ^ 2 + (b.y - st.y) ^ 2 < (b.radius + st.size) ^ 2 := by
      exact_mod_cast h
    exact ⟨hpos, by nlinarith [h2]⟩

/-- The session after `checkCollisions`, before the level-up test. -/
theorem Game.checkCollisions_eq (rnd : Nat → ℚ) (cv : Canvas) (s : Game.Session) :
    Game.checkCollisions rnd cv s =
      (let kept := s.stars.filter (fun st => !Game.starHit s.ball st)
       let s1 : Game.Session :=
         { s with stars := kept
                  score := s.score + (s.stars.filter (fun st => Game.starHit s.ball st)).length }
       let s2 : Game.Session :=
         { (if !s.invulnerable && s.obstacles.any (Game.overlaps s.ball)
              then Game.endGame s1 else s1) with
           obstacles := s.obstacles.map (advance cv.width) }
       if kept.length = 0 then Game.createLevel rnd (s.level + 1) { s2 with level := s2.level + 1 }
       else s2) := by
  simp only [Game.checkCollisions, Game.foldl_starVisit, Game.foldl_obstacleVisit,
    List.nil_append]
  cases hi : s.invulnerable <;> cases ho : s.obstacles.any (Game.overlaps s.ball) <;>
    simp [Game.endGame]

/-- `createLevel` of `Game.jsx` changes neither the score nor the session flags. -/
theorem game_createLevel_frame (rnd : Nat → ℚ) (lvl : Nat) (s : Game.Session) :
    (Game.createLevel rnd lvl s).score = s.score
    ∧ (Game.createLevel rnd lvl s).gameOver = s.gameOver
    ∧ (Game.createLevel rnd lvl s).hasStarted = s.hasStarted := by
  unfold Game.createLevel
  cases s.canvas <;> simp

/-- C4 as stated fails: in `Game.jsx` the star under the ball is removed and the
score rises from 0 to 1, not to 10. -/
theorem game_star_scores_one_not_ten :
    (Game.checkCollisions (fun _ => 1 / 4) Game.canvas0 Game.oneStarUnderBall).stars.length + 1
        = Game.oneStarUnderBall.stars.length
    ∧ (Game.checkCollisions (fun _ => 1 / 4) Game.canvas0 Game.oneStarUnderBall).score
        = Game.oneStarUnderBall.score + 1
    ∧ (Game.checkCollisions (fun _ => 1 / 4) Game.canvas0 Game.oneStarUnderBall).score
        ≠ Game.oneStarUnderBall.score + 10 * 1 := by
  rw [Game.checkCollisions_eq]
  norm_num [Game.oneStarUnderBall, Game.init, Game.starHit, Game.overlaps, List.filter]

/-- C4 (amended): in `checkCollisions` of `Game.jsx` collecting a star raises
the score by exactly 1 and removes that star: afterwards
`score' = score + 1 * (number of stars removed)`, the stars kept and removed add
up to the old list, and while a star is left the star list is the old one without
the stars hit, in order.  A star is hit exactly when
`hypot(dx, dy) < radius + size`. -/
theorem checkCollisions_score (rnd : Nat → ℚ) (cv : Canvas) (s : Game.Session) :
    (Game.checkCollisions rnd cv s).score
        = s.score + 1 * (s.stars.filter (fun st => Game.starHit s.ball st)).length
    ∧ (s.stars.filter (fun st => !Game.starHit s.ball st)).length
          + (s.stars.filter (fun st => Game.starHit s.ball st)).length = s.stars.length
    ∧ (s.stars.filter (fun st => !Game.starHit s.ball st) ≠ [] →
        (Game.checkCollisions rnd cv s).stars
          = s.stars.filter (fun st => !Game.starHit s.ball st))
    ∧ (∀ st : Star, Game.starHit s.ball st = true ↔
        Real.sqrt ((((s.ball.x - st.x) ^ 2 + (s.ball.y - st.y) ^ 2 : ℚ)) : ℝ)
          < (((s.ball.radius + st.size : ℚ)) : ℝ)) := by
  refine ⟨?_, length_filter_not_add _ _, ?_, fun st => Game.starHit_iff_hypot s.ball st⟩
  · rw [Game.checkCollisions_eq]
    simp only []
    split_ifs <;> simp [(game_createLevel_frame _ _ _).1, Game.endGame]
  · intro hne
    have hlen : (s.stars.filter (fun st => !Game.starHit s.ball st)).length ≠ 0 := by
      simpa [List.length_eq_zero] using hne
    rw [Game.checkCollisions_eq]
    simp only []
    rw [if_neg hlen]
    split_ifs <;> rfl

/-- The session `Game.oneStarUnderBall` run through C4: one star of two is
collected, the score goes from 0 to 1 and the far star is the one left. -/
theorem checkCollisions_score_witness :
    (Game.checkCollisions (fun _ => 1 / 4) Game.canvas0 Game.oneStarUnderBall).score = 1
    ∧ (Game.checkCollisions (fun _ => 1 / 4) Game.canvas0 Game.oneStarUnderBall).stars
        = [ { x := 500, y := 100, size := 14, color := 1 } ] := by
  have h := checkCollisions_score (fun _ => 1 / 4) Game.canvas0 Game.oneStarUnderBall
  have hk : Game.oneStarUnderBall.stars.filter
      (fun st => !Game.starHit Game.oneStarUnderBall.ball st)
      = [ { x := 500, y := 100, size := 14, color := 1 } ] := by
    norm_num [Game.oneStarUnderBall, Game.init, Game.starHit, List.filter]
  have hh : (Game.oneStarUnderBall.stars.filter
      (fun st => Game.starHit Game.oneStarUnderBall.ball st)).length = 1 := by
    norm_num [Game.oneStarUnderBall, Game.init, Game.starHit, List.filter]
  refine ⟨?_, ?_⟩
  · rw [h.1, hh]; rfl
  · rw [h.2.2.1 (by rw [hk]; simp), hk]

/-! ### Obstacles -/

/-- Clamping a coordinate to an interval gives the point of the interval
nearest to it. -/
theorem clamp_nearest (lo hi c p : ℚ) (h : lo ≤ hi) (hp1 : lo ≤ p) (hp2 : p ≤ hi) :
    (c - max lo (min c hi)) ^ 2 ≤ (c - p) ^ 2 := by
  rcases le_total c lo with h1 | h1
  · rw [min_eq_left (le_trans h1 h), max_eq_left h1]
    nlinarith
  · rcases le_total c hi with h2 | h2
    · rw [min_eq_left h2, max_eq_right h1]
      nlinarith [sq_nonneg (c - p)]
    · rw [min_eq_right h2, max_eq_right h]
      nlinarith

/-- The point computed by `drawObstacles` lies in the rectangle and no point of
the rectangle is nearer to the ball centre. -/
theorem App.closestPoint_nearest (b : App.Ball) (o : Obstacle) (hw : 0 ≤ o.w) (hh : 0 ≤ o.h) :
    InRect (App.closestPoint b o) o
    ∧ ∀ p : ℚ × ℚ, InRect p o →
        sqDist (b.x, b.y) (App.closestPoint b o) ≤ sqDist (b.x, b.y) p := by
  constructor
  · refine ⟨le_max_left _ _, max_le (by linarith) (min_le_right _ _), le_max_left _ _,
      max_le (by linarith) (min_le_right _ _)⟩
  · rintro p ⟨h1, h2, h3, h4⟩
    have hx := clamp_nearest o.x (o.x + o.w) b.x p.1 (by linarith) h1 h2
    have hy := clamp_nearest o.y (o.y + o.h) b.y p.2 (by linarith) h3 h4
    simp only [sqDist, App.closestPoint]
    linarith

/-- The flag of the obstacle loop: `endGame` is called exactly when the session
is vulnerable and some obstacle, once advanced, touches the ball. -/
theorem App.obstacleLoop_flag (width : ℚ) (b : App.Ball) (inv : Bool) (obs : List Obstacle) :
    (App.obstacleLoop width b inv obs).2 = true ↔
      inv = false ∧ ∃ o ∈ obs, App.touches b (advance width o) = true := by
  induction obs with
  | nil => simp [App.obstacleLoop]
  | cons o t ih =>
    cases inv <;> cases ho : App.touches b (advance width o) <;>
      simp_all [App.obstacleLoop]

/-- C5: in `drawObstacles` of `App.jsx` the session is ended if and only if
invulnerability is false and some obstacle, at its position after this tick's
advance, has the closest point of its rectangle within the ball radius of the
ball centre; while invulnerability is true the step never ends the session.  The
point tested is the nearest point of the rectangle, and the test is
`distance ≤ radius`. -/
theorem drawObstacles_ends_iff (cv : Canvas) (s : App.Session) (hgo : s.gameOver = false) :
    ((App.drawObstacles cv s).gameOver = true ↔
        s.invulnerable = false
        ∧ ∃ o ∈ s.obstacles, App.touches s.ball (advance cv.width o) = true)
    ∧ (s.invulnerable = true →
        (App.drawObstacles cv s).gameOver = false
        ∧ (App.drawObstacles cv s).hasStarted = s.hasStarted)
    ∧ (∀ o : Obstacle, 0 ≤ o.w → 0 ≤ o.h →
        InRect (App.closestPoint s.ball o) o
        ∧ ∀ p : ℚ × ℚ, InRect p o →
            sqDist (s.ball.x, s.ball.y) (App.closestPoint s.ball o)
              ≤ sqDist (s.ball.x, s.ball.y) p)
    ∧ (0 ≤ s.ball.radius → ∀ o : Obstacle,
        (App.touches s.ball o = true ↔
          Real.sqrt ((sqDist (s.ball.x, s.ball.y) (App.closestPoint s.ball o) : ℚ) : ℝ)
            ≤ ((s.ball.radius : ℚ) : ℝ))) := by
  have hflag := App.obstacleLoop_flag cv.width s.ball s.invulnerable s.obstacles
  have hmain : (App.drawObstacles cv s).gameOver = true ↔
      s.invulnerable = false
      ∧ ∃ o ∈ s.obstacles, App.touches s.ball (advance cv.width o) = true := by
    rw [← hflag]
    unfold App.drawObstacles
    cases hr : (App.obstacleLoop cv.width s.ball s.invulnerable s.obstacles).2 <;>
      simp [App.endGame, hgo, hr]
  refine ⟨hmain, ?_, fun o hw hh => App.closestPoint_nearest s.ball o hw hh, ?_⟩
  · intro hinv
    have hnot : (App.obstacleLoop cv.width s.ball s.invulnerable s.obstacles).2 = false := by
      cases hr : (App.obstacleLoop cv.width s.ball s.invulnerable s.obstacles).2
      · rfl
      · have := (hflag.mp hr).1
        rw [hinv] at this
        exact absurd this (by decide)
    unfold App.drawObstacles
    simp [hnot, hgo]
  · intro hr o
    have hr' : (0 : ℝ) ≤ ((s.ball.radius : ℚ) : ℝ) := by exact_mod_cast hr
    rw [Real.sqrt_le_left hr']
    simp only [App.touches, decide_eq_true_eq, sqDist]
    constructor
    · intro h
      have h2 : (s.ball.x - (App.closestPoint s.ball o).1) ^ 2
          + (s.ball.y - (App.closestPoint s.ball o).2) ^ 2 ≤ s.ball.radius ^ 2 := by
        nlinarith [h]
      exact_mod_cast h2
    · intro h
      have h2 : (s.ball.x - (App.closestPoint s.ball o).1) ^ 2
          + (s.ball.y - (App.closestPoint s.ball o).2) ^ 2 ≤ s.ball.radius ^ 2 := by
        exact_mod_cast h
      nlinarith [h2]

/-- The session `App.obstacleArrives` run through C5: the obstacle at `x = 117`
moves to `x = 114`, one unit inside the ball radius, and the session ends. -/
theorem drawObstacles_ends_iff_witness :
    App.obstacleArrives.gameOver = false
    ∧ (App.drawObstacles App.canvas0 App.obstacleArrives).gameOver = true :=
  ⟨rfl, (drawObstacles_ends_iff App.canvas0 App.obstacleArrives rfl).1.mpr
    ⟨rfl, { x := 117, y := 95, w := 40, h := 18, dx := -3 },
      by simp [App.obstacleArrives, App.init],
      by norm_num [App.touches, App.closestPoint, advance, App.obstacleArrives, App.init,
        App.canvas0]⟩⟩

/-- C6 as stated fails in `Game.jsx` in both directions.  A ball off a corner
whose closest rectangle point is farther than its radius still ends the session,
and a ball exactly touching an edge does not. -/
theorem game_obstacle_test_is_not_closest_point :
    (Game.ballOffCorner.invulnerable = false
      ∧ (∀ o ∈ Game.ballOffCorner.obstacles,
          ¬ WithinRadius (Game.ballOffCorner.ball.x, Game.ballOffCorner.ball.y)
              Game.ballOffCorner.ball.radius o)
      ∧ (Game.checkCollisions (fun _ => 1 / 4) Game.canvas0 Game.ballOffCorner).gameOver = true)
    ∧ (Game.ballTouching.invulnerable = false
      ∧ (∃ o ∈ Game.ballTouching.obstacles,
          WithinRadius (Game.ballTouching.ball.x, Game.ballTouching.ball.y)
              Game.ballTouching.ball.radius o)
      ∧ (Game.checkCollisions (fun _ => 1 / 4) Game.canvas0 Game.ballTouching).gameOver
          = false) := by
  refine ⟨⟨rfl, ?_, ?_⟩, ⟨rfl, ?_, ?_⟩⟩
  · intro o ho
    have ho' : o = { x := 100, y := 100, w := 50, h := 20, dx := 2 } := by
      simpa [Game.ballOffCorner, Game.init] using ho
    subst ho'
    norm_num [WithinRadius, sqDist, Game.ballOffCorner, Game.init]
  · rw [Game.checkCollisions_eq]
    norm_num [Game.ballOffCorner, Game.init, Game.starHit, Game.overlaps, Game.endGame,
      List.filter]
  · refine ⟨{ x := 100, y := 100, w := 50, h := 20, dx := 2 }, ?_, ?_⟩
    · simp [Game.ballTouching, Game.init]
    · norm_num [WithinRadius, sqDist, Game.ballTouching, Game.init]
  · rw [Game.checkCollisions_eq]
    norm_num [Game.ballTouching, Game.init, Game.starHit, Game.overlaps, Game.endGame,
      List.filter]

/-- C6 (amended): in `checkCollisions` of `Game.jsx`, with invulnerability
false, the session is ended exactly when for some obstacle, at its position
before this tick's advance, the bounding square of the ball strictly overlaps
the rectangle (`x + r > o.x`, `x − r < o.x + o.w`, `y + r > o.y`,
`y − r < o.y + o.h`); with invulnerability true it is never ended. -/
theorem checkCollisions_ends_iff (rnd : Nat → ℚ) (cv : Canvas) (s : Game.Session)
    (hgo : s.gameOver = false) :
    ((Game.checkCollisions rnd cv s).gameOver = true ↔
        s.invulnerable = false
        ∧ ∃ o ∈ s.obstacles,
            s.ball.x + s.ball.radius > o.x ∧ s.ball.x - s.ball.radius < o.x + o.w
            ∧ s.ball.y + s.ball.radius > o.y ∧ s.ball.y - s.ball.radius < o.y + o.h)
    ∧ (s.invulnerable = true → (Game.checkCollisions rnd cv s).gameOver = false) := by
  have hany : s.obstacles.any (Game.overlaps s.ball) = true ↔
      ∃ o ∈ s.obstacles,
        s.ball.x + s.ball.radius > o.x ∧ s.ball.x - s.ball.radius < o.x + o.w
        ∧ s.ball.y + s.ball.radius > o.y ∧ s.ball.y - s.ball.radius < o.y + o.h := by
    simp [List.any_eq_true, Game.overlaps, and_assoc]
  have hover : (Game.checkCollisions rnd cv s).gameOver
      = (!s.invulnerable && s.obstacles.any (Game.overlaps s.ball)) := by
    rw [Game.checkCollisions_eq]
    simp only []
    cases hi : s.invulnerable <;> cases ho : s.obstacles.any (Game.overlaps s.ball) <;>
      split_ifs <;> simp_all [(game_createLevel_frame _ _ _).2.1, Game.endGame]
  constructor
  · rw [hover, ← hany]
    cases s.invulnerable <;> simp
  · intro hinv
    rw [hover, hinv]
    rfl

/-- The session `Game.ballOffCorner` run through C6: the bounding square of the
ball overlaps the obstacle, so the session ends. -/
theorem checkCollisions_ends_iff_witness :
    Game.ballOffCorner.gameOver = false
    ∧ (Game.checkCollisions (fun _ => 1 / 2) Game.canvas0 Game.ballOffCorner).gameOver = true :=
  ⟨rfl, (checkCollisions_ends_iff (fun _ => 1 / 2) Game.canvas0 Game.ballOffCorner rfl).1.mpr
    ⟨rfl, { x := 100, y := 100, w := 50, h := 20, dx := 2 },
      by simp [Game.ballOffCorner, Game.init],
      by norm_num [Game.ballOffCorner, Game.init]⟩⟩

/-! ### Player names -/

/-- Every character of the name pattern is a single UTF-16 code unit. -/
theorem allowedChar_bmp (c : Char) (h : allowedChar c = true) : c.toNat < 0x10000 := by
  simp only [allowedChar, Bool.or_eq_true, Bool.and_eq_true, decide_eq_true_eq] at h
  have hA : 'A'.toNat = 65 := rfl
  have hZ : 'Z'.toNat = 90 := rfl
  have ha : 'a'.toNat = 97 := rfl
  have hz : 'z'.toNat = 122 := rfl
  have h0 : '0'.toNat = 48 := rfl
  have h9 : '9'.toNat = 57 := rfl
  rcases h with ((((h | h) | h) | h) | h) | h
  · subst h; decide
  · subst h; decide
  · omega
  · omega
  · omega
  · subst h; decide

/-- On a string of pattern characters the JavaScript length is the number of
characters. -/
theorem jsLength_eq_length (cs : List Char) (h : ∀ c ∈ cs, allowedChar c = true) :
    jsLength cs = cs.length := by
  induction cs with
  | nil => rfl
  | cons c t ih =>
    have hc : c.toNat < 0x10000 := allowedChar_bmp c (h c (List.mem_cons_self c t))
    have ht : jsLength t = t.length := ih (fun d hd => h d (List.mem_cons_of_mem c hd))
    unfold jsLength at ht ⊢
    rw [List.map_cons, List.sum_cons, ht, if_pos hc, List.length_cons]
    omega

/-- C7 as stated fails, since `validateName` trims before it measures:
`" ab "` has 4 allowed characters and is rejected, `" abcdefghijklmnop "` has 18
characters and is accepted, and `"abc\t"` holds a tab and is accepted. -/
theorem validateName_measures_trimmed_name :
    ((3 ≤ " ab ".length ∧ " ab ".length ≤ 16 ∧ ∀ c ∈ " ab ".data, allowedChar c = true)
      ∧ validateName " ab " ≠ "")
    ∧ (" abcdefghijklmnop ".length = 18 ∧ validateName " abcdefghijklmnop " = "")
    ∧ (allowedChar '\t' = false ∧ validateName "abc\t" = "") := by
  decide

/-- C7 (amended): `validateName` accepts a name (returns the empty string) if
and only if the name with leading and trailing white space trimmed has between
3 and 16 characters and every character of the trimmed name is one of
`A`–`Z`, `a`–`z`, a digit, a space, a hyphen or an underscore. -/
theorem validateName_accepts_iff (name : String) :
    validateName name = "" ↔
      3 ≤ (jsTrim name.data).length ∧ (jsTrim name.data).length ≤ 16
      ∧ ∀ c ∈ jsTrim name.data, allowedChar c = true := by
  constructor
  · intro h
    unfold validateName at h
    simp only [] at h
    split_ifs at h with h1 h2 h3 h4
    · exact absurd h (by decide)
    · exact absurd h (by decide)
    · exact absurd h (by decide)
    · exact absurd h (by decide)
    · have hp : namePatternTest (jsTrim name.data) = true := by
        cases hp : namePatternTest (jsTrim name.data)
        · rw [hp] at h4; exact absurd rfl h4
        · rfl
      have hall : ∀ c ∈ jsTrim name.data, allowedChar c = true := by
        simp only [namePatternTest, Bool.and_eq_true, List.all_eq_true] at hp
        exact hp.2
      have hl := jsLength_eq_length _ hall
      rw [hl] at h2 h3
      exact ⟨by omega, by omega, hall⟩
  · rintro ⟨h3, h16, hall⟩
    have hl := jsLength_eq_length _ hall
    have hne : name.data.isEmpty = false := by
      cases hd : name.data with
      | nil => rw [hd] at h3; simp [jsTrim] at h3
      | cons c t => rfl
    have hpat : namePatternTest (jsTrim name.data) = true := by
      simp only [namePatternTest, Bool.and_eq_true, List.all_eq_true, Bool.not_eq_true']
      refine ⟨?_, hall⟩
      cases ht : jsTrim name.data with
      | nil => rw [ht] at h3; simp at h3
      | cons c t => rfl
    unfold validateName
    simp only [hne, hl, hpat]
    rw [if_neg (by simp), if_neg (by omega), if_neg (by omega), if_neg (by simp)]

/-- Witness for C7: `" Ava_99 "` is accepted; trimmed it has 6 characters. -/
theorem validateName_accepts_iff_witness :
    validateName " Ava_99 " = ""
    ∧ (jsTrim " Ava_99 ".data).length = 6 :=
  ⟨(validateName_accepts_iff " Ava_99 ").mpr (by decide), by decide⟩

/-! ### Starting a session -/

/-- C8: for every name that `validateName` rejects, `startGame` of either
component changes nothing but the name error, which becomes the message of
`validateName`: the session stays idle, and score, level, time remaining, stars,
obstacles and ball are as before.  For the name "Al" the message is
"Name must be at least 3 characters". -/
theorem startGame_rejects_bad_name (rnd : Nat → ℚ) (a : App.Session) (g : Game.Session)
    (ha : validateName a.playerName ≠ "") (hg : validateName g.playerName ≠ "") :
    App.startGame rnd a = { a with nameError := validateName a.playerName }
    ∧ Game.startGame rnd g = { g with nameError := validateName g.playerName }
    ∧ validateName "Al" = "Name must be at least 3 characters" := by
  refine ⟨?_, ?_, by decide⟩
  · unfold App.startGame
    simp only []
    rw [if_pos ha]
  · unfold Game.startGame
    simp only []
    rw [if_pos hg]

/-- The scenario of C8: with "Al" typed in, `startGame` of either component
only sets the name error. -/
theorem startGame_rejects_bad_name_witness :
    App.startGame (fun _ => 1 / 4) App.namedAl
        = { App.namedAl with nameError := validateName App.namedAl.playerName }
    ∧ Game.startGame (fun _ => 1 / 4) Game.namedAl
        = { Game.namedAl with nameError := validateName Game.namedAl.playerName }
    ∧ validateName "Al" = "Name must be at least 3 characters" :=
  startGame_rejects_bad_name (fun _ => 1 / 4) App.namedAl Game.namedAl (by decide) (by decide)

/-- `createLevel` of `App.jsx` changes neither the score, the level nor the
session flags. -/
theorem app_createLevel_frame (rnd : Nat → ℚ) (lvl : Nat) (s : App.Session) :
    (App.createLevel rnd lvl s).score = s.score
    ∧ (App.createLevel rnd lvl s).level = s.level
    ∧ (App.createLevel rnd lvl s).gameOver = s.gameOver
    ∧ (App.createLevel rnd lvl s).hasStarted = s.hasStarted := by
  unfold App.createLevel
  cases s.canvas <;> simp

/-- C9: for every prior state with a mounted canvas and every valid name,
`startGame` of either component yields a fresh playing session: score 0,
level 1, 30 time units, not over, started, invulnerable, exactly 4 stars and
exactly 1 obstacle. -/
theorem startGame_fresh_session (rnd : Nat → ℚ) (a : App.Session) (g : Game.Session)
    (cva cvg : Canvas) (hca : a.canvas = some cva) (hcg : g.canvas = some cvg)
    (ha : validateName a.playerName = "") (hg : validateName g.playerName = "") :
    ((App.startGame rnd a).score = 0 ∧ (App.startGame rnd a).level = 1
      ∧ (App.startGame rnd a).timeLeft = 30 ∧ (App.startGame rnd a).gameOver = false
      ∧ (App.startGame rnd a).hasStarted = true ∧ (App.startGame rnd a).invulnerable = true
      ∧ (App.startGame rnd a).stars.length = 4 ∧ (App.startGame rnd a).obstacles.length = 1)
    ∧ ((Game.startGame rnd g).score = 0 ∧ (Game.startGame rnd g).level = 1
      ∧ (Game.startGame rnd g).timeLeft = 30 ∧ (Game.startGame rnd g).gameOver = false
      ∧ (Game.startGame rnd g).hasStarted = true ∧ (Game.startGame rnd g).invulnerable = true
      ∧ (Game.startGame rnd g).stars.length = 4
      ∧ (Game.startGame rnd g).obstacles.length = 1) := by
  constructor
  · unfold App.startGame
    simp only [ha, ne_eq, not_true_eq_false, if_false]
    simp [App.createLevel, hca, starCount, obsCount]
  · unfold Game.startGame
    simp only [hg, ne_eq, not_true_eq_false, if_false]
    simp [Game.createLevel, hcg, starCount, obsCount]

/-- The scenario of C9: "Ava_99" restarts from an ended session of either
component. -/
theorem startGame_fresh_session_witness :
    ((App.startGame (fun _ => 1 / 4) App.endedAva).score = 0
      ∧ (App.startGame (fun _ => 1 / 4) App.endedAva).level = 1
      ∧ (App.startGame (fun _ => 1 / 4) App.endedAva).timeLeft = 30
      ∧ (App.startGame (fun _ => 1 / 4) App.endedAva).gameOver = false
      ∧ (App.startGame (fun _ => 1 / 4) App.endedAva).hasStarted = true
      ∧ (App.startGame (fun _ => 1 / 4) App.endedAva).invulnerable = true
      ∧ (App.startGame (fun _ => 1 / 4) App.endedAva).stars.length = 4
      ∧ (App.startGame (fun _ => 1 / 4) App.endedAva).obstacles.length = 1)
    ∧ ((Game.startGame (fun _ => 1 / 4) Game.endedAva).score = 0
      ∧ (Game.startGame (fun _ => 1 / 4) Game.endedAva).level = 1
      ∧ (Game.startGame (fun _ => 1 / 4) Game.endedAva).timeLeft = 30
      ∧ (Game.startGame (fun _ => 1 / 4) Game.endedAva).gameOver = false
      ∧ (Game.startGame (fun _ => 1 / 4) Game.endedAva).hasStarted = true
      ∧ (Game.startGame (fun _ => 1 / 4) Game.endedAva).invulnerable = true
      ∧ (Game.startGame (fun _ => 1 / 4) Game.endedAva).stars.length = 4
      ∧ (Game.startGame (fun _ => 1 / 4) Game.endedAva).obstacles.length = 1) :=
  startGame_fresh_session (fun _ => 1 / 4) App.endedAva Game.endedAva App.canvas0 Game.canvas0
    rfl rfl (by decide) (by decide)

/-! ### The clock -/

/-- While more than `n` time units remain, `n` seconds of a running `App` clock
only lower the time remaining by `n`. -/
theorem app_clockStep_iterate (n : Nat) :
    ∀ s : App.Session, App.timerRunning s = true → (n : ℤ) < s.timeLeft →
      App.clockStep^[n] s = { s with timeLeft := s.timeLeft - n } := by
  induction n with
  | zero => intro s _ _; simp
  | succ n ih =>
    intro s hrun hlt
    have hlt' : ¬ (s.timeLeft - (n : ℤ) ≤ 1) := by push_cast at hlt; omega
    have hrun' : App.timerRunning { s with timeLeft := s.timeLeft - (n : ℤ) } = true := hrun
    rw [Function.iterate_succ_apply', ih s hrun (by push_cast at hlt; omega)]
    unfold App.clockStep
    rw [if_pos hrun']
    unfold App.timerTick
    simp only []
    rw [if_neg hlt']
    simp only [Nat.cast_add, Nat.cast_one, sub_sub]

/-- While more than `n` time units remain, `n` seconds of a running `Game` clock
only lower the time remaining by `n`. -/
theorem game_clockStep_iterate (n : Nat) :
    ∀ s : Game.Session, Game.timerRunning s = true → (n : ℤ) < s.timeLeft →
      Game.clockStep^[n] s = { s with timeLeft := s.timeLeft - n } := by
  induction n with
  | zero => intro s _ _; simp
  | succ n ih =>
    intro s hrun hlt
    have hlt' : ¬ (s.timeLeft - (n : ℤ) ≤ 1) := by push_cast at hlt; omega
    have hrun' : Game.timerRunning { s with timeLeft := s.timeLeft - (n : ℤ) } = true := hrun
    rw [Function.iterate_succ_apply', ih s hrun (by push_cast at hlt; omega)]
    unfold Game.clockStep
    rw [if_pos hrun']
    unfold Game.timerTick
    simp only []
    rw [if_neg hlt']
    simp only [Nat.cast_add, Nat.cast_one, sub_sub]

/-- C10: in both components the one-second tick maps a time remaining `t > 1`
to `t − 1` without ending the session and, at `t ≤ 1`, sets it to 0 and ends the
session, whatever stars remain; the result is never negative.  Hence a running
clock started at 30 leaves the session playing with `30 − n` after `n < 30`
ticks and ends it, at 0, on the 30th. -/
theorem clock_tick_counts_down (a : App.Session) (g : Game.Session)
    (hra : App.timerRunning a = true) (hta : a.timeLeft = 30)
    (hrg : Game.timerRunning g = true) (htg : g.timeLeft = 30) :
    (∀ s : App.Session,
        (1 < s.timeLeft → App.timerTick s = { s with timeLeft := s.timeLeft - 1 })
        ∧ (s.timeLeft ≤ 1 →
            (App.timerTick s).timeLeft = 0 ∧ (App.timerTick s).gameOver = true
            ∧ (App.timerTick s).hasStarted = false ∧ (App.timerTick s).stars = s.stars)
        ∧ 0 ≤ (App.timerTick s).timeLeft)
    ∧ (∀ s : Game.Session,
        (1 < s.timeLeft → Game.timerTick s = { s with timeLeft := s.timeLeft - 1 })
        ∧ (s.timeLeft ≤ 1 →
            (Game.timerTick s).timeLeft = 0 ∧ (Game.timerTick s).gameOver = true
            ∧ (Game.timerTick s).hasStarted = false ∧ (Game.timerTick s).stars = s.stars)
        ∧ 0 ≤ (Game.timerTick s).timeLeft)
    ∧ (∀ n : Nat, n < 30 →
        (App.clockStep^[n] a).gameOver = false ∧ (App.clockStep^[n] a).hasStarted = true
        ∧ (App.clockStep^[n] a).timeLeft = 30 - n)
    ∧ ((App.clockStep^[30] a).gameOver = true ∧ (App.clockStep^[30] a).timeLeft = 0)
    ∧ (∀ n : Nat, n < 30 →
        (Game.clockStep^[n] g).gameOver = false ∧ (Game.clockStep^[n] g).hasStarted = true
        ∧ (Game.clockStep^[n] g).timeLeft = 30 - n)
    ∧ ((Game.clockStep^[30] g).gameOver = true ∧ (Game.clockStep^[30] g).timeLeft = 0) := by
  have hfa : a.hasStarted = true ∧ a.gameOver = false := by
    simp only [App.timerRunning] at hra
    cases h1 : a.hasStarted <;> cases h2 : a.gameOver <;> simp_all
  have hfg : g.hasStarted = true ∧ g.gameOver = false := by
    simp only [Game.timerRunning] at hrg
    cases h1 : g.hasStarted <;> cases h2 : g.gameOver <;> simp_all
  refine ⟨?_, ?_, ?_, ?_, ?_, ?_⟩
  · intro s
    refine ⟨?_, ?_, ?_⟩
    · intro h
      unfold App.timerTick
      rw [if_neg (by omega)]
    · intro h
      unfold App.timerTick
      rw [if_pos h]
      simp [App.endGame]
    · unfold App.timerTick
      split_ifs with h
      · simp
      · simp only []; omega
  · intro s
    refine ⟨?_, ?_, ?_⟩
    · intro h
      unfold Game.timerTick
      rw [if_neg (by omega)]
    · intro h
      unfold Game.timerTick
      rw [if_pos h]
      simp [Game.endGame]
    · unfold Game.timerTick
      split_ifs with h
      · simp
      · simp only []; omega
  · intro n hn
    rw [app_clockStep_iterate n a hra (by rw [hta]; exact_mod_cast hn)]
    exact ⟨hfa.2, hfa.1, by simp only [hta]⟩
  · have h29 := app_clockStep_iterate 29 a hra (by rw [hta]; norm_num)
    have hrun' : App.timerRunning { a with timeLeft := a.timeLeft - ((29 : ℕ) : ℤ) } = true := hra
    rw [show (30 : ℕ) = 29 + 1 from rfl, Function.iterate_succ_apply', h29]
    unfold App.clockStep
    rw [if_pos hrun']
    unfold App.timerTick
    simp only [hta]
    rw [if_pos (by norm_num)]
    simp [App.endGame]
  · intro n hn
    rw [game_clockStep_iterate n g hrg (by rw [htg]; exact_mod_cast hn)]
    exact ⟨hfg.2, hfg.1, by simp only [htg]⟩
  · have h29 := game_clockStep_iterate 29 g hrg (by rw [htg]; norm_num)
    have hrun' : Game.timerRunning { g with timeLeft := g.timeLeft - ((29 : ℕ) : ℤ) } = true := hrg
    rw [show (30 : ℕ) = 29 + 1 from rfl, Function.iterate_succ_apply', h29]
    unfold Game.clockStep
    rw [if_pos hrun']
    unfold Game.timerTick
    simp only [htg]
    rw [if_pos (by norm_num)]
    simp [Game.endGame]

/-- Witness for C10: a level of either component that starts with a star on
screen is still playing after 29 ticks, with one time unit left, and is over
after the 30th with the star uncollected. -/
theorem clock_tick_counts_down_witness :
    ((App.clockStep^[29] App.levelStart).gameOver = false
      ∧ (App.clockStep^[29] App.levelStart).timeLeft = 30 - (29 : ℕ))
    ∧ ((App.clockStep^[30] App.levelStart).gameOver = true
      ∧ (App.clockStep^[30] App.levelStart).timeLeft = 0)
    ∧ ((Game.clockStep^[29] Game.levelStart).gameOver = false
      ∧ (Game.clockStep^[29] Game.levelStart).timeLeft = 30 - (29 : ℕ))
    ∧ ((Game.clockStep^[30] Game.levelStart).gameOver = true
      ∧ (Game.clockStep^[30] Game.levelStart).timeLeft = 0) :=
  have h := clock_tick_counts_down App.levelStart Game.levelStart rfl rfl rfl rfl
  ⟨⟨(h.2.2.1 29 (by decide)).1, (h.2.2.1 29 (by decide)).2.2⟩, h.2.2.2.1,
    ⟨(h.2.2.2.2.1 29 (by decide)).1, (h.2.2.2.2.1 29 (by decide)).2.2⟩, h.2.2.2.2.2⟩


/-! ### Frames of `App.jsx` -/

/-- C11 fails on the code: `loop` of `App.jsx` runs `drawStars` and
`drawObstacles` on every frame, paused or not.  In the paused session
`App.pausedOverStar` one frame collects the star under the ball (score 20 to
30), moves the obstacle from 117 to 114 and ends the session. -/
theorem app_paused_frame_changes_state :
    App.pausedOverStar.paused = true
    ∧ App.pausedOverStar.score = 20
    ∧ (App.loop App.pausedOverStar).score = 30
    ∧ (App.loop App.pausedOverStar).stars = [ { x := 500, y := 300, size := 16, color := 1 } ]
    ∧ (App.loop App.pausedOverStar).obstacles
        = [ { x := 114, y := 95, w := 40, h := 18, dx := -3 } ]
    ∧ App.pausedOverStar.gameOver = false
    ∧ (App.loop App.pausedOverStar).gameOver = true := by
  norm_num [App.loop, App.moveBall, App.drawObstacles, App.obstacleLoop, App.touches,
    App.closestPoint, advance, App.endGame, App.drawStars, App.starLoop, App.starHit,
    App.pausedOverStar, App.init, List.eraseIdx]


/-! ### The level-up trigger of `App.jsx` -/

/-- `drawStars` schedules a transition exactly when it leaves no star and none
was triggered yet, and then sets the flag. -/
theorem App.drawStars_trigger (s : App.Session) :
    ((App.drawStars s).stars = [] ∧ s.levelUpTriggered = false →
      (App.drawStars s).pendingLevelUps = s.pendingLevelUps + 1
      ∧ (App.drawStars s).levelUpTriggered = true)
    ∧ (¬ ((App.drawStars s).stars = [] ∧ s.levelUpTriggered = false) →
      (App.drawStars s).pendingLevelUps = s.pendingLevelUps
      ∧ (App.drawStars s).levelUpTriggered = s.levelUpTriggered) := by
  unfold App.drawStars
  simp only []
  split_ifs with h
  · simp [List.length_eq_zero.mp h.1, h.2]
  · simp only [List.length_eq_zero] at h
    simp [h]

/-- `drawObstacles` and `moveBall` leave the level-up bookkeeping alone. -/
theorem App.drawObstacles_moveBall_trigger (cv : Canvas) (s : App.Session) :
    (App.moveBall cv (App.drawObstacles cv s)).pendingLevelUps = s.pendingLevelUps
    ∧ (App.moveBall cv (App.drawObstacles cv s)).levelUpTriggered = s.levelUpTriggered := by
  unfold App.moveBall App.drawObstacles
  simp only []
  constructor <;> split_ifs <;> rfl

/-- One event either leaves the number of scheduled transitions alone, with the
flag kept if it was set, or schedules one and sets the flag. -/
theorem App.step_trigger (s : App.Session) (e : App.Event) :
    ((App.step s e).pendingLevelUps = s.pendingLevelUps
      ∧ (s.levelUpTriggered = true → (App.step s e).levelUpTriggered = true))
    ∨ (s.levelUpTriggered = false
      ∧ (App.step s e).pendingLevelUps = s.pendingLevelUps + 1
      ∧ (App.step s e).levelUpTriggered = true) := by
  cases e with
  | frame =>
    simp only [App.step, App.loop]
    cases hc : s.canvas with
    | none => left; exact ⟨rfl, fun h => h⟩
    | some cv =>
      simp only []
      have hom := App.drawObstacles_moveBall_trigger cv (App.drawStars s)
      have hds := App.drawStars_trigger s
      by_cases h : (App.drawStars s).stars = [] ∧ s.levelUpTriggered = false
      · right
        have := hds.1 h
        exact ⟨h.2, by rw [hom.1, this.1], by rw [hom.2, this.2]⟩
      · left
        have := hds.2 h
        exact ⟨by rw [hom.1, this.1], fun ht => by rw [hom.2, this.2, ht]⟩
  | second =>
    left
    simp only [App.step, App.clockStep, App.timerTick, App.endGame]
    constructor <;> split_ifs <;> simp
  | invulnerabilityEnds => left; exact ⟨rfl, fun h => h⟩
  | keys k => left; exact ⟨rfl, fun h => h⟩
  | togglePause =>
    left
    simp only [App.step]
    split_ifs <;> exact ⟨rfl, fun h => h⟩
  | typeName name =>
    left
    simp only [App.step]
    split_ifs <;> exact ⟨rfl, fun h => h⟩

/-- Once a transition is triggered, no sequence of events schedules another. -/
theorem App.run_triggered (evs : List App.Event) :
    ∀ s : App.Session, s.levelUpTriggered = true →
      (App.run s evs).pendingLevelUps = s.pendingLevelUps
      ∧ (App.run s evs).levelUpTriggered = true := by
  induction evs with
  | nil => intro s h; exact ⟨rfl, h⟩
  | cons e t ih =>
    intro s h
    have hstep := App.step_trigger s e
    rcases hstep with ⟨hp, ht⟩ | ⟨hf, _, _⟩
    · have := ih (App.step s e) (ht h)
      simp only [App.run, List.foldl_cons] at this ⊢
      exact ⟨this.1.trans hp, this.2⟩
    · rw [h] at hf; exact absurd hf (by decide)

/-- Any sequence of events schedules at most one transition. -/
theorem App.run_at_most_one (evs : List App.Event) :
    ∀ s : App.Session, (App.run s evs).pendingLevelUps ≤ s.pendingLevelUps + 1 := by
  induction evs with
  | nil => intro s; simp [App.run]
  | cons e t ih =>
    intro s
    have hstep := App.step_trigger s e
    rcases hstep with ⟨hp, _⟩ | ⟨_, hp, ht⟩
    · have := ih (App.step s e)
      simp only [App.run, List.foldl_cons] at this ⊢
      omega
    · have := (App.run_triggered t (App.step s e) ht).1
      simp only [App.run, List.foldl_cons] at this ⊢
      omega

/-- C12: in `App.jsx` the frame whose `drawStars` leaves the star list empty,
with no transition triggered yet in this level, schedules exactly one level
transition; from then on no number of frames (or clock ticks, key changes, pause
toggles) schedules another before `createLevel` runs, so between two
`createLevel` calls at most one transition is scheduled.  The transition raises
the level by exactly 1 and regenerates stars and obstacles for the new level. -/
theorem levelUp_scheduled_once (rnd : Nat → ℚ) (s : App.Session) (cv : Canvas)
    (hc : s.canvas = some cv) (evs : List App.Event) :
    ((App.drawStars s).stars = [] → s.levelUpTriggered = false →
        (App.drawStars s).pendingLevelUps = s.pendingLevelUps + 1
        ∧ (App.drawStars s).levelUpTriggered = true
        ∧ (App.loop s).pendingLevelUps = s.pendingLevelUps + 1
        ∧ (App.run (App.loop s) evs).pendingLevelUps = s.pendingLevelUps + 1)
    ∧ (s.levelUpTriggered = true →
        (App.run s evs).pendingLevelUps = s.pendingLevelUps
        ∧ (App.run s evs).levelUpTriggered = true)
    ∧ (App.run s evs).pendingLevelUps ≤ s.pendingLevelUps + 1
    ∧ ((App.levelUpTimeout rnd s).level = s.level + 1
      ∧ (App.levelUpTimeout rnd s).stars
          = (List.range (starCount (s.level + 1))).map (App.mkStar rnd cv)
      ∧ (App.levelUpTimeout rnd s).obstacles
          = (List.range (obsCount (s.level + 1))).map
              (App.mkObstacle rnd cv (s.level + 1) (3 * starCount (s.level + 1)))
      ∧ (App.levelUpTimeout rnd s).stars.length = min 8 (3 + (s.level + 1) + (s.level + 1) / 2)
      ∧ (App.levelUpTimeout rnd s).obstacles.length = min 6 (s.level + 1)
      ∧ (App.levelUpTimeout rnd s).levelUpTriggered = false
      ∧ (App.levelUpTimeout rnd s).pendingLevelUps = s.pendingLevelUps - 1) := by
  refine ⟨?_, App.run_triggered evs s, App.run_at_most_one evs s, ?_⟩
  · intro he hf
    have hd := (App.drawStars_trigger s).1 ⟨he, hf⟩
    have hdc : (App.drawStars s).canvas = some cv := by
      rw [← hc]; unfold App.drawStars; simp only []; split_ifs <;> rfl
    have hom := App.drawObstacles_moveBall_trigger cv (App.drawStars s)
    have hloop : App.loop s = App.moveBall cv (App.drawObstacles cv (App.drawStars s)) := by
      simp only [App.loop, hc]
    have hlt : (App.loop s).levelUpTriggered = true := by rw [hloop, hom.2, hd.2]
    have hlp : (App.loop s).pendingLevelUps = s.pendingLevelUps + 1 := by
      rw [hloop, hom.1, hd.1]
    exact ⟨hd.1, hd.2, hlp, by rw [(App.run_triggered evs (App.loop s) hlt).1, hlp]⟩
  · simp [App.levelUpTimeout, App.createLevel, hc, starCount, obsCount]

/-- The session `App.lastStar` run through C12: the frame that collects the
last star schedules one transition, twenty more frames and a clock tick schedule
none, and the transition leads to level 3 with 7 stars and 3 obstacles. -/
theorem levelUp_scheduled_once_witness :
    (App.run (App.loop App.lastStar)
        (List.replicate 20 App.Event.frame ++ [App.Event.second])).pendingLevelUps = 1
    ∧ (App.levelUpTimeout (fun _ => 1 / 4) App.lastStar).level = 3
    ∧ (App.levelUpTimeout (fun _ => 1 / 4) App.lastStar).stars.length = 7
    ∧ (App.levelUpTimeout (fun _ => 1 / 4) App.lastStar).obstacles.length = 3 := by
  have h := levelUp_scheduled_once (fun _ => 1 / 4) App.lastStar App.canvas0 rfl
    (List.replicate 20 App.Event.frame ++ [App.Event.second])
  have he : (App.drawStars App.lastStar).stars = [] := by
    norm_num [App.drawStars, App.starLoop, App.starHit, App.lastStar, App.init, List.eraseIdx]
  refine ⟨(h.1 he rfl).2.2.2, h.2.2.2.1, ?_, ?_⟩
  · rw [h.2.2.2.2.2.2.1]; rfl
  · rw [h.2.2.2.2.2.2.2.1]; rfl


/-! ### The leaderboard list -/

instance : IsTotal Entry scoreLevelDesc where
  total a b := by
    unfold scoreLevelDesc
    rcases lt_trichotomy a.score b.score with h | h | h
    · right; left; exact h
    · rcases le_total a.level b.level with h2 | h2
      · right; right; exact ⟨h, h2⟩
      · left; right; exact ⟨h.symm, h2⟩
    · left; left; exact h

instance : IsTrans Entry scoreLevelDesc where
  trans a b c := by
    unfold scoreLevelDesc
    rintro (h1 | ⟨h1, h1l⟩) (h2 | ⟨h2, h2l⟩)
    · left; omega
    · left; omega
    · left; omega
    · right; exact ⟨by omega, by omega⟩

/-- `x || 0` is the identity on integers. -/
theorem orZero_eq (x : ℤ) : orZero x = x := by
  unfold orZero
  split_ifs with h
  · exact h.symm
  · rfl

/-- A list in the server order is left as it is by both client sorts. -/
theorem client_sort_of_sorted (l : List Entry) (h : l.Sorted scoreLevelDesc) :
    Game.sortFetched l = l ∧ sortScores l = l := by
  constructor
  · apply List.Sorted.insertionSort_eq
    refine List.Pairwise.imp ?_ h
    intro a b hab
    unfold scoreLevelDesc at hab
    unfold scoreDesc
    omega
  · apply List.Sorted.insertionSort_eq
    refine List.Pairwise.imp ?_ h
    intro a b hab
    unfold scoreLevelDesc at hab
    unfold scoreOrZeroDesc
    rw [orZero_eq, orZero_eq]
    omega

/-- C13: for every store content, the list either client shows
(`GET /api/leaderboard`, then the client sort on score) is a permutation of the
stored entries, ordered by score descending and, among equal scores, by level
descending: the stable client sort leaves the server order as it is. -/
theorem leaderboard_list_sorted (store : List Entry) :
    (Game.sortFetched (getLeaderboard store)).Perm store
    ∧ (Game.sortFetched (getLeaderboard store)).Pairwise
        (fun a b => b.score < a.score ∨ (b.score = a.score ∧ b.level ≤ a.level))
    ∧ (sortScores (getLeaderboard store)).Perm store
    ∧ (sortScores (getLeaderboard store)).Pairwise
        (fun a b => b.score < a.score ∨ (b.score = a.score ∧ b.level ≤ a.level))
    ∧ Game.sortFetched (getLeaderboard store) = getLeaderboard store
    ∧ sortScores (getLeaderboard store) = getLeaderboard store := by
  have hs : (getLeaderboard store).Sorted scoreLevelDesc :=
    List.sorted_insertionSort scoreLevelDesc store
  have hp : (getLeaderboard store).Perm store := List.perm_insertionSort scoreLevelDesc store
  have hc := client_sort_of_sorted (getLeaderboard store) hs
  rw [hc.1, hc.2]
  exact ⟨hp, hs, hp, hs, rfl, rfl⟩


/-! ### Writing to the leaderboard -/

/-- C14 as stated fails for the empty name: the schema marks `name` as
required, `save()` rejects an empty string, the handler answers 500 and the
store is unchanged. -/
theorem post_empty_name_adds_nothing :
    postLeaderboard "665f1c2ab7e4d2a9c0a1b2c3" 1000 "" 50 3 [] = ([], Reply.serverError) := by
  decide

/-- An entry appended to the collection with a score above all others heads
the list of `GET /api/leaderboard`. -/
theorem head_getLeaderboard_append (store : List Entry) (e : Entry)
    (hmax : ∀ x ∈ store, x.score < e.score) :
    (getLeaderboard (store ++ [e])).head? = some e := by
  have hs := List.sorted_insertionSort scoreLevelDesc (store ++ [e])
  have hmem : ∀ x, x ∈ List.insertionSort scoreLevelDesc (store ++ [e])
      ↔ x ∈ store ∨ x = e := by
    intro x
    rw [List.mem_insertionSort]
    simp
  unfold getLeaderboard
  cases hl : List.insertionSort scoreLevelDesc (store ++ [e]) with
  | nil =>
    have := (hmem e).mpr (Or.inr rfl)
    rw [hl] at this
    exact absurd this (List.not_mem_nil _)
  | cons a t =>
    rw [hl] at hs
    simp only [List.head?_cons, Option.some.injEq]
    have ha := (hmem a).mp (by rw [hl]; exact List.mem_cons_self a t)
    rcases ha with ha | ha
    · exfalso
      have hnew : e ∈ a :: t := by
        rw [← hl]; exact (hmem _).mpr (Or.inr rfl)
      rcases List.mem_cons.mp hnew with h | h
      · have := hmax a ha
        rw [← h] at this
        exact lt_irrefl _ this
      · have hrel := List.rel_of_sorted_cons hs _ h
        have := hmax a ha
        unfold scoreLevelDesc at hrel
        omega
    · exact ha

/-- C14 (amended): for every store and every non-empty name, score and level,
`POST /api/leaderboard` adds exactly one entry with those values at the end of
the collection, whether or not an entry of that name exists, and leaves every
other entry unchanged; the following `GET` contains it, and returns it first
whenever its score is strictly greater than every other stored score. -/
theorem post_always_inserts (newId : String) (now : Nat) (name : String) (score level : ℤ)
    (store : List Entry) (hname : name ≠ "") :
    postLeaderboard newId now name score level store
        = (store ++ [{ id := newId, name := name, score := score, level := level, date := now }],
           Reply.ok)
    ∧ (postLeaderboard newId now name score level store).1.length = store.length + 1
    ∧ ({ id := newId, name := name, score := score, level := level, date := now } : Entry)
        ∈ getLeaderboard (postLeaderboard newId now name score level store).1
    ∧ ((∀ e ∈ store, e.score < score) →
        (getLeaderboard (postLeaderboard newId now name score level store).1).head?
          = some { id := newId, name := name, score := score, level := level, date := now }) := by
  have hpost : postLeaderboard newId now name score level store
      = (store ++ [{ id := newId, name := name, score := score, level := level, date := now }],
         Reply.ok) := by
    unfold postLeaderboard nameRequiredOk
    rw [if_pos (by simpa using hname)]
  refine ⟨hpost, by rw [hpost]; simp, ?_, ?_⟩
  · rw [hpost]
    unfold getLeaderboard
    rw [List.mem_insertionSort]
    simp
  · intro hmax
    rw [hpost]
    exact head_getLeaderboard_append store _ hmax

/-- The scenario of C14: `submit("Ava_99", 50, 3)` on an empty store, then
`list()`. -/
theorem post_always_inserts_witness :
    (postLeaderboard "665f1c2ab7e4d2a9c0a1b2c3" 1000 "Ava_99" 50 3 []).1.length = 0 + 1
    ∧ (getLeaderboard (postLeaderboard "665f1c2ab7e4d2a9c0a1b2c3" 1000 "Ava_99" 50 3 []).1).head?
        = some { id := "665f1c2ab7e4d2a9c0a1b2c3", name := "Ava_99", score := 50, level := 3,
                 date := 1000 } :=
  have h := post_always_inserts "665f1c2ab7e4d2a9c0a1b2c3" 1000 "Ava_99" 50 3 [] (by decide)
  ⟨h.2.1, h.2.2.2 (fun e he => absurd he (List.not_mem_nil e))⟩


/-- `updateFirst` finds nothing exactly when no entry has the name. -/
theorem updateFirst_eq_none_iff (now : Nat) (name : String) (score level : ℤ)
    (store : List Entry) :
    updateFirst now name score level store = none ↔ ∀ e ∈ store, e.name ≠ name := by
  induction store with
  | nil => simp [updateFirst]
  | cons e t ih =>
    unfold updateFirst
    by_cases h : e.name = name
    · simp [h]
    · simp [h, ih]

/-- With one entry per name, `updateFirst` rewrites the entry of that name and
no other. -/
theorem updateFirst_eq_map (now : Nat) (name : String) (score level : ℤ)
    (store : List Entry) (hnd : (store.map Entry.name).Nodup)
    (hex : ∃ e ∈ store, e.name = name) :
    updateFirst now name score level store
      = some (store.map
          (fun e => if e.name = name then Entry.setScore now score level e else e)) := by
  induction store with
  | nil => simp at hex
  | cons e t ih =>
    rw [List.map_cons, List.nodup_cons] at hnd
    unfold updateFirst
    by_cases h : e.name = name
    · have ht : ∀ x ∈ t, x.name ≠ name := by
        intro x hx hxn
        exact hnd.1 (List.mem_map.mpr ⟨x, hx, by rw [hxn, h]⟩)
      have hmap : t.map (fun e => if e.name = name then Entry.setScore now score level e else e)
          = t := by
        conv_rhs => rw [← List.map_id t]
        apply List.map_congr_left
        intro x hx
        simp [ht x hx]
      rw [if_pos h, List.map_cons, if_pos h, hmap]
      rfl
    · have hex2 : ∃ x ∈ t, x.name = name := by
        rcases hex with ⟨x, hx, hxn⟩
        rcases List.mem_cons.mp hx with hxe | hxt
        · exact absurd (hxe ▸ hxn) h
        · exact ⟨x, hxt, hxn⟩
      simp [h, ih hnd.2 hex2]

/-- C15: on a store with at most one entry per name, `PUT /api/leaderboard/:name`
keeps the number of entries and sets the score and level of the entry named
`name` if there is one, and otherwise adds exactly one entry with that name,
score and level; every other entry is unchanged and the store still has at most
one entry per name. -/
theorem put_upserts_by_name (newId : String) (now : Nat) (name : String) (score level : ℤ)
    (store : List Entry) (hnd : (store.map Entry.name).Nodup) :
    ((∃ e ∈ store, e.name = name) →
        (putLeaderboard newId now name score level store).1
          = store.map (fun e => if e.name = name then Entry.setScore now score level e else e)
        ∧ (putLeaderboard newId now name score level store).1.length = store.length)
    ∧ ((∀ e ∈ store, e.name ≠ name) →
        (putLeaderboard newId now name score level store).1
          = store ++ [{ id := newId, name := name, score := score, level := level, date := now }])
    ∧ ((putLeaderboard newId now name score level store).1.map Entry.name).Nodup
    ∧ (∀ e ∈ (putLeaderboard newId now name score level store).1,
        e.name = name → e.score = score ∧ e.level = level)
    ∧ (putLeaderboard newId now name score level store).2 = Reply.ok := by
  by_cases hex : ∃ e ∈ store, e.name = name
  · have hu := updateFirst_eq_map now name score level store hnd hex
    have hput : (putLeaderboard newId now name score level store)
        = (store.map (fun e => if e.name = name then Entry.setScore now score level e else e),
           Reply.ok) := by
      unfold putLeaderboard; rw [hu]
    have hnames : (store.map
        (fun e => if e.name = name then Entry.setScore now score level e else e)).map Entry.name
        = store.map Entry.name := by
      rw [List.map_map]
      apply List.map_congr_left
      intro x _
      simp only [Function.comp]
      split_ifs <;> rfl
    refine ⟨fun _ => ⟨by rw [hput], by rw [hput]; simp⟩, ?_, ?_, ?_, by rw [hput]⟩
    · intro hno
      rcases hex with ⟨e, he, hen⟩
      exact absurd hen (hno e he)
    · rw [hput]; simp only []; rw [hnames]; exact hnd
    · rw [hput]
      intro e he hen
      rcases List.mem_map.mp he with ⟨x, _, hx⟩
      by_cases hxn : x.name = name
      · rw [if_pos hxn] at hx
        rw [← hx]
        exact ⟨rfl, rfl⟩
      · rw [if_neg hxn] at hx
        rw [hx] at hxn
        exact absurd hen hxn
  · have hno : ∀ e ∈ store, e.name ≠ name := by
      intro e he hen
      exact hex ⟨e, he, hen⟩
    have hu := (updateFirst_eq_none_iff now name score level store).mpr hno
    have hput : (putLeaderboard newId now name score level store)
        = (store ++ [{ id := newId, name := name, score := score, level := level,
                       date := now }], Reply.ok) := by
      unfold putLeaderboard; rw [hu]
    refine ⟨fun h => absurd h hex, fun _ => by rw [hput], ?_, ?_, by rw [hput]⟩
    · rw [hput]
      simp only [List.map_append, List.map_cons, List.map_nil]
      rw [List.nodup_append]
      refine ⟨hnd, List.nodup_singleton _, ?_⟩
      intro a ha hb
      rw [List.mem_singleton] at hb
      rcases List.mem_map.mp ha with ⟨x, hx, hxn⟩
      exact hno x hx (hxn.trans hb)
    · rw [hput]
      intro e he hen
      rcases List.mem_append.mp he with h | h
      · exact absurd hen (hno e h)
      · rw [List.mem_singleton] at h
        rw [h]
        exact ⟨rfl, rfl⟩

/-- The scenario of C15: `upsert("Ava_99", 10, 1)` on a store that holds an
entry named "Ava_99" replaces its score, level and time stamp and adds nothing. -/
theorem put_upserts_by_name_witness :
    (putLeaderboard "665f1c2ab7e4d2a9c0a1b2c9" 999 "Ava_99" 10 1 storeWithAva).1
      = [ { id := "665f1c2ab7e4d2a9c0a1b2c1", name := "Bo_7", score := 80, level := 4,
            date := 100 },
          { id := "665f1c2ab7e4d2a9c0a1b2c2", name := "Ava_99", score := 10, level := 1,
            date := 999 },
          { id := "665f1c2ab7e4d2a9c0a1b2c3", name := "Cy", score := 20, level := 1,
            date := 300 } ]
    ∧ (putLeaderboard "665f1c2ab7e4d2a9c0a1b2c9" 999 "Ava_99" 10 1 storeWithAva).1.length
        = storeWithAva.length := by
  have h := put_upserts_by_name "665f1c2ab7e4d2a9c0a1b2c9" 999 "Ava_99" 10 1 storeWithAva
    (by decide)
  have hex : ∃ e ∈ storeWithAva, e.name = "Ava_99" :=
    ⟨{ id := "665f1c2ab7e4d2a9c0a1b2c2", name := "Ava_99", score := 50, level := 3,
       date := 200 }, by decide, rfl⟩
  exact ⟨(h.1 hex).1.trans (by decide), (h.1 hex).2⟩


/-- C16 fails on the code: Edit stores the row's `_id` in `editId` and
`updateScore` sends it in the place of the name, so the handler looks for an
entry *named* by the identifier, finds none and inserts one.  Editing the row of
"Ava_99" to score 10, level 1 leaves that row at 50 / 3 and makes the store one
entry longer. -/
theorem edit_row_adds_entry_named_by_id :
    avaRow ∈ storeWithAva
    ∧ (updateScore "665f1c2ab7e4d2a9c0a1b2c9" 999
        { editRow avaRow blankForm with newScore := 10, newLevel := 1 } storeWithAva).1
      = storeWithAva ++
          [ { id := "665f1c2ab7e4d2a9c0a1b2c9", name := "665f1c2ab7e4d2a9c0a1b2c2",
              score := 10, level := 1, date := 999 } ]
    ∧ (updateScore "665f1c2ab7e4d2a9c0a1b2c9" 999
        { editRow avaRow blankForm with newScore := 10, newLevel := 1 } storeWithAva).1.length
      = storeWithAva.length + 1 := by
  decide

/-! ### Deleting an entry -/

/-- What `deleteFirst` returns: nothing when no entry has the name, otherwise
the first entry of that name and the store without it. -/
theorem deleteFirst_spec (name : String) (store : List Entry) :
    (deleteFirst name store = none ∧ ∀ e ∈ store, e.name ≠ name)
    ∨ ∃ l1 e l2, store = l1 ++ e :: l2 ∧ e.name = name ∧ (∀ x ∈ l1, x.name ≠ name)
        ∧ deleteFirst name store = some (e, l1 ++ l2) := by
  induction store with
  | nil => left; simp [deleteFirst]
  | cons a t ih =>
    by_cases h : a.name = name
    · right
      exact ⟨[], a, t, rfl, h, by simp, by simp [deleteFirst, h]⟩
    · rcases ih with ⟨hn, hall⟩ | ⟨l1, e, l2, hst, hen, hl1, hd⟩
      · left
        refine ⟨by simp [deleteFirst, h, hn], ?_⟩
        intro x hx
        rcases List.mem_cons.mp hx with hxa | hxt
        · rw [hxa]; exact h
        · exact hall x hxt
      · right
        refine ⟨a :: l1, e, l2, by rw [hst]; rfl, hen, ?_, by simp [deleteFirst, h, hd]⟩
        intro x hx
        rcases List.mem_cons.mp hx with hxa | hxt
        · rw [hxa]; exact h
        · exact hl1 x hxt

/-- C17: `DELETE /api/leaderboard/:name` answers not-found (404) if and only if
no stored entry has that name, and then the store is unchanged; otherwise it
answers success and exactly one entry of that name, the first, is removed, all
other entries staying as they are and in order. -/
theorem delete_by_name (name : String) (store : List Entry) :
    ((deleteLeaderboard name store).2 = Reply.notFound ↔ ∀ e ∈ store, e.name ≠ name)
    ∧ ((∀ e ∈ store, e.name ≠ name) → (deleteLeaderboard name store).1 = store)
    ∧ ((∃ e ∈ store, e.name = name) →
        (deleteLeaderboard name store).2 = Reply.ok
        ∧ (deleteLeaderboard name store).1.length + 1 = store.length
        ∧ ∃ l1 e l2, store = l1 ++ e :: l2 ∧ e.name = name ∧ (∀ x ∈ l1, x.name ≠ name)
            ∧ (deleteLeaderboard name store).1 = l1 ++ l2) := by
  rcases deleteFirst_spec name store with ⟨hn, hall⟩ | ⟨l1, e, l2, hst, hen, hl1, hd⟩
  · have hdel : deleteLeaderboard name store = (store, Reply.notFound) := by
      unfold deleteLeaderboard; rw [hn]
    refine ⟨⟨fun _ => hall, fun _ => by rw [hdel]⟩, fun _ => by rw [hdel], ?_⟩
    rintro ⟨x, hx, hxn⟩
    exact absurd hxn (hall x hx)
  · have hdel : deleteLeaderboard name store = (l1 ++ l2, Reply.ok) := by
      unfold deleteLeaderboard; rw [hd]
    have hmem : e ∈ store := by rw [hst]; simp
    refine ⟨⟨?_, ?_⟩, ?_, ?_⟩
    · intro h
      rw [hdel] at h
      exact Reply.noConfusion h
    · intro h
      exact absurd hen (h e hmem)
    · intro h
      exact absurd hen (h e hmem)
    · intro _
      refine ⟨by rw [hdel], ?_, l1, e, l2, hst, hen, hl1, by rw [hdel]⟩
      rw [hdel, hst]
      simp only [List.length_append, List.length_cons]
      omega

/-- The scenarios of C17: `remove("NoSuchPlayer")` reports not-found and leaves
the collection unchanged; `remove("Ava_99")` removes that one entry. -/
theorem delete_by_name_witness :
    (deleteLeaderboard "NoSuchPlayer" storeWithAva).2 = Reply.notFound
    ∧ (deleteLeaderboard "NoSuchPlayer" storeWithAva).1 = storeWithAva
    ∧ (deleteLeaderboard "Ava_99" storeWithAva).2 = Reply.ok
    ∧ (deleteLeaderboard "Ava_99" storeWithAva).1.length + 1 = storeWithAva.length :=
  have h1 := delete_by_name "NoSuchPlayer" storeWithAva
  have h2 := delete_by_name "Ava_99" storeWithAva
  have hno : ∀ e ∈ storeWithAva, e.name ≠ "NoSuchPlayer" := by decide
  have hex : ∃ e ∈ storeWithAva, e.name = "Ava_99" := ⟨avaRow, by decide, rfl⟩
  ⟨h1.1.mpr hno, h1.2.1 hno, (h2.2.2 hex).1, (h2.2.2 hex).2.1⟩


/-! ### The requests sent by `Game.jsx` -/

/-- The obstacle pass with its requests: the session and the obstacles are those
of `Game.obstacleVisit`, and one request is sent for each obstacle that
overlaps the ball while the session is vulnerable. -/
theorem Game.foldl_runObstacleVisit (width : ℚ) (score level : Nat) (l : List Obstacle) :
    ∀ acc : Game.Run × List Obstacle,
      l.foldl (Game.runObstacleVisit width score level) acc
        = ({ acc.1 with
             session := if !acc.1.session.invulnerable && l.any (Game.overlaps acc.1.session.ball)
               then Game.endGame acc.1.session else acc.1.session
             posted := acc.1.posted ++ List.replicate
               (if acc.1.session.invulnerable then 0
                else l.countP (Game.overlaps acc.1.session.ball))
               { name := Game.submitName acc.1.session.playerName, score := score,
                 level := level } },
           acc.2 ++ l.map (advance width)) := by
  induction l with
  | nil => intro acc; simp
  | cons o t ih =>
    intro acc
    rw [List.foldl_cons, ih]
    cases hi : acc.1.session.invulnerable <;> cases ho : Game.overlaps acc.1.session.ball o <;>
      cases ht : t.any (Game.overlaps acc.1.session.ball) <;>
      simp [Game.runObstacleVisit, Game.endGamePost, Game.endGame, hi, ho, ht,
        List.replicate_succ, List.countP_cons]


/-- The frame with its requests acts on the session as `Game.animate` does. -/
theorem Game.runFrame_session (rnd : Nat → ℚ) (r : Game.Run) :
    (Game.runFrame rnd r).session = Game.animate rnd r.session := by
  unfold Game.runFrame Game.animate
  simp only []
  split_ifs with hg
  · rfl
  · cases hc : r.session.canvas with
    | none => rfl
    | some cv =>
      simp only [Game.checkCollisions, Game.foldl_runObstacleVisit, Game.foldl_obstacleVisit]

/-- A frame that does not end the session sends nothing, and no frame touches
the values held by the timer closure. -/
theorem Game.runFrame_posted (rnd : Nat → ℚ) (r : Game.Run) :
    ((Game.runFrame rnd r).session.gameOver = false → (Game.runFrame rnd r).posted = r.posted)
    ∧ (Game.runFrame rnd r).timerScore = r.timerScore
    ∧ (Game.runFrame rnd r).timerLevel = r.timerLevel := by
  have htimer : (Game.runFrame rnd r).timerScore = r.timerScore
      ∧ (Game.runFrame rnd r).timerLevel = r.timerLevel := by
    unfold Game.runFrame
    simp only []
    split_ifs with hg
    · simp
    · cases hc : r.session.canvas with
      | none => simp
      | some cv => simp [Game.foldl_runObstacleVisit]
  refine ⟨?_, htimer⟩
  unfold Game.runFrame
  simp only []
  split_ifs with hg
  · simp
  · cases hc : r.session.canvas with
    | none => simp
    | some cv =>
      simp only [Game.foldl_runObstacleVisit]
      cases hi : (Game.moveBall r.session).invulnerable
      · cases ha : (Game.moveBall r.session).obstacles.any
            (Game.overlaps (Game.moveBall r.session).ball)
        · intro _
          have hcnt : (Game.moveBall r.session).obstacles.countP
              (Game.overlaps (Game.moveBall r.session).ball) = 0 := by
            rw [List.countP_eq_zero]
            intro o ho hov
            have := List.any_eq_true.mpr ⟨o, ho, hov⟩
            rw [ha] at this
            exact Bool.noConfusion this
          simp [hcnt]
        · intro hgo
          exfalso
          simp only [Bool.not_false, Bool.and_self, if_true, Game.endGame] at hgo
          split_ifs at hgo
          all_goals
            first
            | exact Bool.noConfusion hgo
            | (rw [(game_createLevel_frame _ _ _).2.1] at hgo; exact Bool.noConfusion hgo)
      · intro _
        simp


/-- `startGame` of `Game.jsx` leaves the game-over flag false or as it was. -/
theorem Game.startGame_flags (rnd : Nat → ℚ) (s : Game.Session) :
    (validateName s.playerName = "" →
      (Game.startGame rnd s).hasStarted = true ∧ (Game.startGame rnd s).gameOver = false
      ∧ (Game.startGame rnd s).score = 0 ∧ (Game.startGame rnd s).level = 1
      ∧ (Game.startGame rnd s).playerName = s.playerName)
    ∧ (validateName s.playerName ≠ "" →
      (Game.startGame rnd s).hasStarted = s.hasStarted
      ∧ (Game.startGame rnd s).gameOver = s.gameOver) := by
  constructor
  · intro h
    unfold Game.startGame Game.createLevel
    simp only [h, ne_eq, not_true_eq_false, if_false]
    cases s.canvas <;> simp
  · intro h
    unfold Game.startGame
    simp only []
    rw [if_pos h]
    exact ⟨rfl, rfl⟩

/-- Once the session is over no event sends a request, and it stays over. -/
theorem Game.step_ended (r : Game.Run) (e : Game.Event)
    (hgo : r.session.gameOver = true) (hst : r.session.hasStarted = false) :
    (Game.step r e).session.gameOver = true ∧ (Game.step r e).session.hasStarted = false
    ∧ (Game.step r e).posted = r.posted := by
  cases e with
  | start rnd => simp [Game.step, hgo, hst]
  | frame rnd => simp [Game.step, Game.runFrame, hgo, hst]
  | second => simp [Game.step, Game.runSecond, Game.timerRunning, hgo, hst]
  | sync => simp [Game.step, Game.runSync, hgo, hst]
  | invulnerabilityEnds => simp [Game.step, Game.invulnerabilityTimeout, hgo, hst]
  | keys k => simp [Game.step, hgo, hst]
  | togglePause => simp [Game.step, hgo, hst]

/-- After the end of the session a run sends nothing. -/
theorem Game.run_ended (evs : List Game.Event) :
    ∀ r : Game.Run, r.session.gameOver = true → r.session.hasStarted = false →
      (Game.run r evs).posted = r.posted := by
  induction evs with
  | nil => intro r _ _; rfl
  | cons e t ih =>
    intro r hgo hst
    have h := Game.step_ended r e hgo hst
    have := ih (Game.step r e) h.1 h.2.1
    simp only [Game.run, List.foldl_cons] at this ⊢
    rw [this, h.2.2]

/-- The Start button on the mounted `Game` with "Ava_99" typed in. -/
theorem Game.step_start_mountedAva :
    Game.step Game.mountedAva (Game.Event.start quarterDraws)
      = { Game.mountedAva with
          session := Game.startGame quarterDraws Game.mountedAva.session
          timerScore := 0, timerLevel := 1 }
    ∧ (Game.startGame quarterDraws Game.mountedAva.session).hasStarted = true
    ∧ (Game.startGame quarterDraws Game.mountedAva.session).gameOver = false
    ∧ (Game.startGame quarterDraws Game.mountedAva.session).score = 0
    ∧ (Game.startGame quarterDraws Game.mountedAva.session).level = 1
    ∧ (Game.startGame quarterDraws Game.mountedAva.session).playerName = "Ava_99" := by
  have hv : validateName Game.mountedAva.session.playerName = "" := by decide
  have hs := (Game.startGame_flags quarterDraws Game.mountedAva.session).1 hv
  refine ⟨?_, hs.1, hs.2.1, hs.2.2.1, hs.2.2.2.1, hs.2.2.2.2⟩
  have hguard : (!Game.mountedAva.session.hasStarted && !Game.mountedAva.session.gameOver)
      = true := rfl
  simp only [Game.step]
  rw [if_pos hguard]
  simp only [hs.1, if_true, hs.2.2.1, hs.2.2.2.1]

/-- C18 as stated fails: after Start, one tick of the live leaderboard sync
sends `{ name: "Ava_99", score: 0, level: 1 }` while the session is playing. -/
theorem game_sync_posts_while_playing :
    (Game.run Game.mountedAva [Game.Event.start quarterDraws, Game.Event.sync]).session.hasStarted
      = true
    ∧ (Game.run Game.mountedAva [Game.Event.start quarterDraws, Game.Event.sync]).session.gameOver
      = false
    ∧ (Game.run Game.mountedAva [Game.Event.start quarterDraws, Game.Event.sync]).posted
      = [{ name := "Ava_99", score := 0, level := 1 }] := by
  have hn : Game.submitName "Ava_99" = "Ava_99" := by decide
  have hs := Game.step_start_mountedAva
  have hrun : Game.run Game.mountedAva [Game.Event.start quarterDraws, Game.Event.sync]
      = Game.runSync (Game.step Game.mountedAva (Game.Event.start quarterDraws)) := rfl
  rw [hrun, hs.1]
  unfold Game.runSync
  simp only [hs.2.1, hs.2.2.1, hs.2.2.2.1, hs.2.2.2.2.1, hs.2.2.2.2.2, hn]
  exact ⟨rfl, rfl, rfl⟩

/-- C18 (amended): in `Game.jsx` a session writes to the leaderboard at its end
and at every tick of the live sync while it is started and not over.  Each such
sync tick sends exactly one entry `{ name, score, level }`; a sync tick outside a
session, the Start button, key and pause events, and frames and clock ticks
that do not end the session send nothing; the clock tick that ends the session
sends exactly one entry under the player's name; after the end nothing more is
sent. -/
theorem game_posts_on_sync_and_end (r : Game.Run) (evs : List Game.Event) :
    (r.session.hasStarted = true → r.session.gameOver = false →
        Game.step r Game.Event.sync
          = { r with posted := r.posted ++
                [{ name := Game.submitName r.session.playerName, score := r.session.score,
                   level := r.session.level }] })
    ∧ ((r.session.hasStarted = false ∨ r.session.gameOver = true) →
        Game.step r Game.Event.sync = r)
    ∧ (∀ rnd, (Game.step r (Game.Event.start rnd)).posted = r.posted)
    ∧ (∀ k, (Game.step r (Game.Event.keys k)).posted = r.posted)
    ∧ (Game.step r Game.Event.togglePause).posted = r.posted
    ∧ (Game.step r Game.Event.invulnerabilityEnds).posted = r.posted
    ∧ (∀ rnd, (Game.step r (Game.Event.frame rnd)).session.gameOver = false →
        (Game.step r (Game.Event.frame rnd)).posted = r.posted)
    ∧ ((Game.step r Game.Event.second).session.gameOver = false →
        (Game.step r Game.Event.second).posted = r.posted)
    ∧ (Game.timerRunning r.session = true → r.session.timeLeft ≤ 1 →
        (Game.step r Game.Event.second).session.gameOver = true
        ∧ (Game.step r Game.Event.second).posted
            = r.posted ++ [{ name := Game.submitName r.session.playerName,
                             score := r.timerScore, level := r.timerLevel }])
    ∧ (r.session.gameOver = true → r.session.hasStarted = false →
        (Game.run r evs).posted = r.posted) := by
  refine ⟨?_, ?_, ?_, ?_, ?_, ?_, ?_, ?_, ?_, Game.run_ended evs r⟩
  · intro h1 h2
    simp [Game.step, Game.runSync, h1, h2]
  · intro h
    rcases h with h | h <;> simp [Game.step, Game.runSync, h]
  · intro rnd
    simp only [Game.step]
    split_ifs <;> rfl
  · intro k; rfl
  · simp only [Game.step]
    split_ifs <;> rfl
  · rfl
  · intro rnd
    exact (Game.runFrame_posted rnd r).1
  · simp only [Game.step, Game.runSecond, Game.endGamePost, Game.endGame]
    split_ifs <;> simp
  · intro hrun hle
    simp [Game.step, Game.runSecond, Game.endGamePost, Game.endGame, hrun, hle]

/-- A run through C18: after Start on the mounted `Game` with "Ava_99" typed
in, a tick of the live sync sends one entry while the session is playing. -/
theorem game_posts_on_sync_and_end_witness :
    (Game.step (Game.step Game.mountedAva (Game.Event.start quarterDraws))
        Game.Event.sync).posted
      = [{ name := Game.submitName "Ava_99", score := 0, level := 1 }] := by
  have hs := Game.step_start_mountedAva
  have h := game_posts_on_sync_and_end
    (Game.step Game.mountedAva (Game.Event.start quarterDraws)) []
  rw [(h.1 (by rw [hs.1]; exact hs.2.1) (by rw [hs.1]; exact hs.2.2.1))]
  rw [hs.1]
  simp only [hs.2.2.2.1, hs.2.2.2.2.1, hs.2.2.2.2.2]
  rfl


/-! ### Where `createLevel` places the entities -/

/-- A draw in `[0, 1)` scaled to a span and shifted by a margin lands between the
margin and the margin plus the span. -/
theorem scaled_draw_bounds (r span margin : ℚ) (h0 : 0 ≤ r) (h1 : r < 1) (hs : 0 ≤ span) :
    margin ≤ r * span + margin ∧ r * span + margin ≤ span + margin := by
  have ha : 0 ≤ r * span := mul_nonneg h0 hs
  have hb : r * span ≤ 1 * span := mul_le_mul_of_nonneg_right h1.le hs
  constructor <;> linarith

/-- C19: for every level `L ≥ 1`, every random stream with draws in `[0, 1)` and
every canvas at least two obstacle widths and heights and two star margins in
each dimension, every star created by `createLevel` (in either component) has
its centre at least one star size from every edge, and every obstacle's
rectangle lies wholly inside the area.  In `App.jsx` the obstacle is 40 × 18 and
the star margin 30, so the canvas is at least 80 wide and 60 high; in `Game.jsx`
they are 50 × 20 and 20, so at least 100 wide and 40 high. -/
theorem createLevel_positions (rnd : Nat → ℚ) (hrnd : ∀ k, 0 ≤ rnd k ∧ rnd k < 1)
    (L : Nat) (hL : 1 ≤ L) (a : App.Session) (g : Game.Session) (cva cvg : Canvas)
    (ha : a.canvas = some cva) (hg : g.canvas = some cvg)
    (hwa : 2 * 40 ≤ cva.width) (hna : 2 * 30 ≤ cva.height)
    (hwg : 2 * 50 ≤ cvg.width) (hhg : 2 * 20 ≤ cvg.height) :
    (∀ st ∈ (App.createLevel rnd L a).stars,
        st.size ≤ st.x ∧ st.x ≤ cva.width - st.size
        ∧ st.size ≤ st.y ∧ st.y ≤ cva.height - st.size)
    ∧ (∀ o ∈ (App.createLevel rnd L a).obstacles,
        0 ≤ o.x ∧ o.x + o.w ≤ cva.width ∧ 0 ≤ o.y ∧ o.y + o.h ≤ cva.height)
    ∧ (∀ st ∈ (Game.createLevel rnd L g).stars,
        st.size ≤ st.x ∧ st.x ≤ cvg.width - st.size
        ∧ st.size ≤ st.y ∧ st.y ≤ cvg.height - st.size)
    ∧ (∀ o ∈ (Game.createLevel rnd L g).obstacles,
        0 ≤ o.x ∧ o.x + o.w ≤ cvg.width ∧ 0 ≤ o.y ∧ o.y + o.h ≤ cvg.height) := by
  have _ := hL
  refine ⟨?_, ?_, ?_, ?_⟩
  · intro st hst
    simp only [App.createLevel, ha, List.mem_map, List.mem_range] at hst
    rcases hst with ⟨i, _, rfl⟩
    have hx := scaled_draw_bounds (rnd (3 * i)) (cva.width - 60) 30 (hrnd _).1 (hrnd _).2
      (by linarith)
    have hy := scaled_draw_bounds (rnd (3 * i + 1)) (cva.height - 60) 30 (hrnd _).1 (hrnd _).2
      (by linarith)
    simp only [App.mkStar]
    refine ⟨?_, ?_, ?_, ?_⟩ <;> linarith [hx.1, hx.2, hy.1, hy.2]
  · intro o ho
    simp only [App.createLevel, ha, List.mem_map, List.mem_range] at ho
    rcases ho with ⟨j, _, rfl⟩
    have hx := scaled_draw_bounds (rnd (3 * starCount L + 4 * j)) (cva.width - 2 * 40) 40
      (hrnd _).1 (hrnd _).2 (by linarith)
    have hy := scaled_draw_bounds (rnd (3 * starCount L + 4 * j + 1)) (cva.height - 2 * 18) 18
      (hrnd _).1 (hrnd _).2 (by linarith)
    simp only [App.mkObstacle]
    refine ⟨?_, ?_, ?_, ?_⟩ <;> linarith [hx.1, hx.2, hy.1, hy.2]
  · intro st hst
    simp only [Game.createLevel, hg, List.mem_map, List.mem_range] at hst
    rcases hst with ⟨i, _, rfl⟩
    have hx := scaled_draw_bounds (rnd (3 * i)) (cvg.width - 40) 20 (hrnd _).1 (hrnd _).2
      (by linarith)
    have hy := scaled_draw_bounds (rnd (3 * i + 1)) (cvg.height - 40) 20 (hrnd _).1 (hrnd _).2
      (by linarith)
    simp only [Game.mkStar]
    refine ⟨?_, ?_, ?_, ?_⟩ <;> linarith [hx.1, hx.2, hy.1, hy.2]
  · intro o ho
    simp only [Game.createLevel, hg, List.mem_map, List.mem_range] at ho
    rcases ho with ⟨j, _, rfl⟩
    have hx := scaled_draw_bounds (rnd (3 * starCount L + 4 * j)) (cvg.width - 2 * 50) 50
      (hrnd _).1 (hrnd _).2 (by linarith)
    have hy := scaled_draw_bounds (rnd (3 * starCount L + 4 * j + 1)) (cvg.height - 2 * 20) 20
      (hrnd _).1 (hrnd _).2 (by linarith)
    simp only [Game.mkObstacle]
    refine ⟨?_, ?_, ?_, ?_⟩ <;> linarith [hx.1, hx.2, hy.1, hy.2]

/-- Witness for C19: level 3 on the mounted canvases with every draw 1/4. -/
theorem createLevel_positions_witness :
    (∀ st ∈ (App.createLevel quarterDraws 3 App.init).stars,
        st.size ≤ st.x ∧ st.x ≤ App.canvas0.width - st.size
        ∧ st.size ≤ st.y ∧ st.y ≤ App.canvas0.height - st.size)
    ∧ (∀ o ∈ (App.createLevel quarterDraws 3 App.init).obstacles,
        0 ≤ o.x ∧ o.x + o.w ≤ App.canvas0.width ∧ 0 ≤ o.y ∧ o.y + o.h ≤ App.canvas0.height)
    ∧ (∀ st ∈ (Game.createLevel quarterDraws 3 Game.init).stars,
        st.size ≤ st.x ∧ st.x ≤ Game.canvas0.width - st.size
        ∧ st.size ≤ st.y ∧ st.y ≤ Game.canvas0.height - st.size)
    ∧ (∀ o ∈ (Game.createLevel quarterDraws 3 Game.init).obstacles,
        0 ≤ o.x ∧ o.x + o.w ≤ Game.canvas0.width ∧ 0 ≤ o.y ∧ o.y + o.h ≤ Game.canvas0.height) :=
  createLevel_positions quarterDraws (fun _ => by norm_num [quarterDraws]) 3 (by decide)
    App.init Game.init App.canvas0 Game.canvas0 rfl rfl
    (by norm_num [App.canvas0]) (by norm_num [App.canvas0])
    (by norm_num [Game.canvas0]) (by norm_num [Game.canvas0])


/-! ### Obstacles bouncing between the edges -/

/-- The new velocity after one update. -/
theorem advance_dx (width : ℚ) (o : Obstacle) :
    (advance width o).dx
      = if o.x + o.dx ≤ 0 ∨ o.x + o.dx + o.w ≥ width then -o.dx else o.dx := by
  simp [advance]

/-- One update keeps the bounce invariant. -/
theorem Bouncing.advance_keeps {width w v x0 : ℚ} {o : Obstacle} (hv : 0 < v)
    (h : Bouncing width w v x0 o) : Bouncing width w v x0 (advance width o) := by
  obtain ⟨hw, hd, ⟨k, hk⟩, hneg, hpos⟩ := h
  have hx : (StarGame.advance width o).x = o.x + o.dx := rfl
  have hww : (StarGame.advance width o).w = o.w := rfl
  have hdx := advance_dx width o
  rcases hd with hd | hd
  · obtain ⟨h1, h2⟩ := hpos hd
    refine ⟨hww.trans hw, ?_, ⟨k + 1, by rw [hx, hk, hd]; push_cast; ring⟩, ?_, ?_⟩
    · rw [hdx, hd]; split_ifs
      · right; rfl
      · left; rfl
    · intro _
      rw [hx, hd]
      constructor <;> linarith
    · intro hnew
      rw [hdx] at hnew
      split_ifs at hnew with hc
      · rw [hd] at hnew; linarith
      · rw [hx, hd]
        rw [hd, hw] at hc
        push_neg at hc
        constructor <;> linarith [hc.2]
  · obtain ⟨h1, h2⟩ := hneg hd
    refine ⟨hww.trans hw, ?_, ⟨k - 1, by rw [hx, hk, hd]; push_cast; ring⟩, ?_, ?_⟩
    · rw [hdx, hd]; split_ifs
      · left; ring
      · right; rfl
    · intro hnew
      rw [hdx] at hnew
      split_ifs at hnew with hc
      · rw [hd] at hnew; linarith
      · rw [hx, hd]
        rw [hd, hw] at hc
        push_neg at hc
        constructor <;> linarith [hc.1]
    · intro _
      rw [hx, hd]
      constructor <;> linarith

/-- Any number of updates keeps the bounce invariant. -/
theorem Bouncing.iterate {width w v x0 : ℚ} {o : Obstacle} (hv : 0 < v)
    (h : Bouncing width w v x0 o) (n : Nat) :
    Bouncing width w v x0 ((StarGame.advance width)^[n] o) := by
  induction n with
  | zero => exact h
  | succ n ih =>
    rw [Function.iterate_succ_apply']
    exact Bouncing.advance_keeps hv ih

/-- What the invariant says about position and speed. -/
theorem Bouncing.bounds {width w v x0 : ℚ} {o : Obstacle} (hv : 0 < v)
    (h : Bouncing width w v x0 o) :
    -v < o.x ∧ o.x + w < width + v ∧ |o.dx| = v := by
  obtain ⟨_, hd, _, hneg, hpos⟩ := h
  rcases hd with hd | hd
  · obtain ⟨h1, h2⟩ := hpos hd
    refine ⟨h2, by linarith, ?_⟩
    rw [hd, abs_of_pos hv]
  · obtain ⟨h1, h2⟩ := hneg hd
    refine ⟨by linarith, h2, ?_⟩
    rw [hd, abs_neg, abs_of_pos hv]

/-- An obstacle that started strictly inside the canvas is never turned round on
two updates in a row. -/
theorem Bouncing.no_double_flip {width w v x0 : ℚ} {o : Obstacle} (hv : 0 < v)
    (hx0 : 0 < x0) (hx0w : x0 + w < width) (h : Bouncing width w v x0 o) :
    ¬ ((StarGame.advance width o).dx = -o.dx
        ∧ (StarGame.advance width (StarGame.advance width o)).dx
            = -(StarGame.advance width o).dx) := by
  obtain ⟨hw, hd, ⟨k, hk⟩, hneg, hpos⟩ := h
  rintro ⟨hf1, hf2⟩
  have hne : o.dx ≠ 0 := by rcases hd with hd | hd <;> rw [hd] <;> linarith
  have hc1 : o.x + o.dx ≤ 0 ∨ o.x + o.dx + o.w ≥ width := by
    by_contra hc
    rw [advance_dx, if_neg hc] at hf1
    exact hne (by linarith)
  have hf1' : (StarGame.advance width o).dx = -o.dx := hf1
  have hc2 : o.x ≤ 0 ∨ o.x + o.w ≥ width := by
    by_contra hc
    have hx1 : (StarGame.advance width o).x + (StarGame.advance width o).dx = o.x := by
      rw [hf1']; show o.x + o.dx + -o.dx = o.x; ring
    have hw1 : (StarGame.advance width o).w = o.w := rfl
    rw [advance_dx, hx1, hw1, if_neg hc, hf1'] at hf2
    exact hne (by linarith)
  rw [hw] at hc1 hc2
  rcases hd with hd | hd
  · obtain ⟨h1, h2⟩ := hpos hd
    rw [hd] at hc1
    have hxle : o.x ≤ 0 := by rcases hc2 with h | h <;> linarith
    have hge : o.x + v + w ≥ width := by rcases hc1 with h | h <;> linarith
    have hkneg : k < 0 := by
      by_contra hk0
      have : (0 : ℚ) ≤ (k : ℚ) := by exact_mod_cast not_lt.mp hk0
      nlinarith [mul_nonneg this hv.le]
    have hk1 : (k : ℚ) + 1 ≤ 0 := by
      have : k + 1 ≤ 0 := by omega
      exact_mod_cast this
    nlinarith [mul_nonpos_of_nonpos_of_nonneg hk1 hv.le]
  · obtain ⟨h1, h2⟩ := hneg hd
    rw [hd] at hc1
    have hxge : o.x + w ≥ width := by rcases hc2 with h | h <;> linarith
    have hle : o.x - v ≤ 0 := by rcases hc1 with h | h <;> linarith
    have hkpos : 0 < k := by
      by_contra hk0
      have : (k : ℚ) ≤ 0 := by exact_mod_cast not_lt.mp hk0
      nlinarith [mul_nonpos_of_nonpos_of_nonneg this hv.le]
    have hk1 : (0 : ℚ) ≤ (k : ℚ) - 1 := by
      have : 0 ≤ k - 1 := by omega
      exact_mod_cast this
    nlinarith [mul_nonneg hk1 hv.le]


/-- An obstacle strictly inside the canvas with a non-zero velocity starts in
the bounce invariant for its own speed and position. -/
theorem Bouncing.of_inside (width : ℚ) (o : Obstacle) (hx : 0 < o.x)
    (hxw : o.x + o.w < width) (hdx : o.dx ≠ 0) :
    Bouncing width o.w |o.dx| o.x o := by
  have hv : 0 < |o.dx| := abs_pos.mpr hdx
  refine ⟨rfl, ?_, ⟨0, by simp⟩, ?_, ?_⟩
  · rcases abs_choice o.dx with h | h
    · left; exact h.symm
    · right; rw [h]; ring
  · intro _; constructor <;> linarith
  · intro _; constructor <;> linarith

/-- The obstacles of a level start strictly inside a canvas wider than two
obstacle widths, with a non-zero velocity; `margin` is the obstacle width and
`base` the slowest speed of the level. -/
theorem created_obstacle_inside (r1 r2 r3 width margin base : ℚ)
    (h1 : 0 ≤ r1 ∧ r1 < 1) (h3 : 0 ≤ r3) (hm : 0 < margin) (hwide : 2 * margin < width)
    (hb : 0 < base) (step : ℚ) (hstep : 0 ≤ step) :
    0 < r1 * (width - 2 * margin) + margin
    ∧ r1 * (width - 2 * margin) + margin + margin < width
    ∧ randomDir r2 * (base + r3 * step) ≠ 0 := by
  have hspan : 0 < width - 2 * margin := by linarith
  have ha : 0 ≤ r1 * (width - 2 * margin) := mul_nonneg h1.1 hspan.le
  have hb2 : r1 * (width - 2 * margin) < 1 * (width - 2 * margin) :=
    mul_lt_mul_of_pos_right h1.2 hspan
  have hsp : 0 < base + r3 * step := by
    have := mul_nonneg h3 hstep
    linarith
  refine ⟨by linarith, by linarith, ?_⟩
  unfold randomDir
  split_ifs
  · rw [one_mul]; exact ne_of_gt hsp
  · intro h; linarith

/-- C20 as stated fails on a canvas exactly two obstacle widths wide: the
obstacle of level 1 starts at `x = 40` with its right side on the edge; after
one update its right side is exactly `|dx|` beyond the edge, and its velocity
is negated on the first update and again on the second. -/
theorem obstacle_sticks_at_twice_its_width :
    (App.createLevel threeQuarterDraws 1 App.narrowCanvas).obstacles = [App.narrowObstacle]
    ∧ (2 * App.narrowObstacle.w ≤ 80)
    ∧ ¬ ((advance 80 App.narrowObstacle).x + App.narrowObstacle.w < 80 + |App.narrowObstacle.dx|)
    ∧ (advance 80 App.narrowObstacle).dx = -App.narrowObstacle.dx
    ∧ (advance 80 (advance 80 App.narrowObstacle)).dx = -(advance 80 App.narrowObstacle).dx := by
  refine ⟨?_, ?_, ?_, ?_, ?_⟩
  · norm_num [App.createLevel, App.narrowCanvas, App.init, obsCount, starCount, App.mkObstacle,
      threeQuarterDraws, randomDir, App.narrowObstacle, List.range, List.range.loop]
  · norm_num [App.narrowObstacle]
  · norm_num [advance, App.narrowObstacle, abs_of_pos]
  · norm_num [advance, App.narrowObstacle]
  · norm_num [advance, App.narrowObstacle]

/-- C20 (amended): for every obstacle created by `createLevel` (either
component, draws in `[0, 1)`) on a canvas of fixed width strictly greater than
two obstacle widths, and every number `n` of per-frame updates: the obstacle
satisfies `-|dx| < x` and `x + w < W + |dx|`, `|dx|` keeps its initial value, and
`dx` is not negated on two updates in a row. -/
theorem obstacle_bounces_inside (rnd : Nat → ℚ) (hrnd : ∀ k, 0 ≤ rnd k ∧ rnd k < 1)
    (L : Nat) (a : App.Session) (g : Game.Session) (cva cvg : Canvas)
    (ha : a.canvas = some cva) (hg : g.canvas = some cvg)
    (hwa : 2 * 40 < cva.width) (hwg : 2 * 50 < cvg.width) (n : Nat) :
    (∀ o ∈ (App.createLevel rnd L a).obstacles,
        -|o.dx| < ((advance cva.width)^[n] o).x
        ∧ ((advance cva.width)^[n] o).x + o.w < cva.width + |o.dx|
        ∧ |((advance cva.width)^[n] o).dx| = |o.dx|
        ∧ ¬ (((advance cva.width)^[n + 1] o).dx = -((advance cva.width)^[n] o).dx
            ∧ ((advance cva.width)^[n + 2] o).dx = -((advance cva.width)^[n + 1] o).dx))
    ∧ (∀ o ∈ (Game.createLevel rnd L g).obstacles,
        -|o.dx| < ((advance cvg.width)^[n] o).x
        ∧ ((advance cvg.width)^[n] o).x + o.w < cvg.width + |o.dx|
        ∧ |((advance cvg.width)^[n] o).dx| = |o.dx|
        ∧ ¬ (((advance cvg.width)^[n + 1] o).dx = -((advance cvg.width)^[n] o).dx
            ∧ ((advance cvg.width)^[n + 2] o).dx = -((advance cvg.width)^[n + 1] o).dx)) := by
  have key : ∀ (width : ℚ) (o : Obstacle), 0 < o.x → o.x + o.w < width → o.dx ≠ 0 →
      -|o.dx| < ((advance width)^[n] o).x
      ∧ ((advance width)^[n] o).x + o.w < width + |o.dx|
      ∧ |((advance width)^[n] o).dx| = |o.dx|
      ∧ ¬ (((advance width)^[n + 1] o).dx = -((advance width)^[n] o).dx
          ∧ ((advance width)^[n + 2] o).dx = -((advance width)^[n + 1] o).dx) := by
    intro width o hx hxw hdx
    have hv : 0 < |o.dx| := abs_pos.mpr hdx
    have hB := Bouncing.iterate hv (Bouncing.of_inside width o hx hxw hdx) n
    have hb := Bouncing.bounds hv hB
    refine ⟨hb.1, hb.2.1, hb.2.2, ?_⟩
    have hnd := Bouncing.no_double_flip hv hx hxw hB
    rw [Function.iterate_succ_apply', Function.iterate_succ_apply',
      Function.iterate_succ_apply']
    exact hnd
  constructor
  · intro o ho
    simp only [App.createLevel, ha, List.mem_map, List.mem_range] at ho
    rcases ho with ⟨j, _, rfl⟩
    have h := created_obstacle_inside (rnd (3 * starCount L + 4 * j))
      (rnd (3 * starCount L + 4 * j + 2)) (rnd (3 * starCount L + 4 * j + 3)) cva.width 40
      (8 / 5 + (L : ℚ) * (9 / 10)) (hrnd _) (hrnd _).1 (by norm_num) hwa
      (by have : (0 : ℚ) ≤ (L : ℚ) := Nat.cast_nonneg L; linarith) (3 / 5) (by norm_num)
    exact key cva.width _ h.1 h.2.1 h.2.2
  · intro o ho
    simp only [Game.createLevel, hg, List.mem_map, List.mem_range] at ho
    rcases ho with ⟨j, _, rfl⟩
    have h := created_obstacle_inside (rnd (3 * starCount L + 4 * j))
      (rnd (3 * starCount L + 4 * j + 2)) (rnd (3 * starCount L + 4 * j + 3)) cvg.width 50
      (3 / 2 + (L : ℚ) * (7 / 10)) (hrnd _) (hrnd _).1 (by norm_num) hwg
      (by have : (0 : ℚ) ≤ (L : ℚ) := Nat.cast_nonneg L; linarith) (1 / 2) (by norm_num)
    exact key cvg.width _ h.1 h.2.1 h.2.2

/-- Witness for C20: the obstacles of level 3 on the mounted canvases after 100
updates. -/
theorem obstacle_bounces_inside_witness :
    (∀ o ∈ (App.createLevel quarterDraws 3 App.init).obstacles,
        -|o.dx| < ((advance App.canvas0.width)^[100] o).x
        ∧ ((advance App.canvas0.width)^[100] o).x + o.w < App.canvas0.width + |o.dx|)
    ∧ (∀ o ∈ (Game.createLevel quarterDraws 3 Game.init).obstacles,
        -|o.dx| < ((advance Game.canvas0.width)^[100] o).x
        ∧ ((advance Game.canvas0.width)^[100] o).x + o.w < Game.canvas0.width + |o.dx|) :=
  have h := obstacle_bounces_inside quarterDraws (fun _ => by norm_num [quarterDraws]) 3
    App.init Game.init App.canvas0 Game.canvas0 rfl rfl (by norm_num [App.canvas0])
    (by norm_num [Game.canvas0]) 100
  ⟨fun o ho => ⟨(h.1 o ho).1, (h.1 o ho).2.1⟩, fun o ho => ⟨(h.2 o ho).1, (h.2 o ho).2.1⟩⟩

end StarGame
